import Mathlib

/-!
# Lux: the PageRank placement mapper

A shallow embedding of `src/pagerank/pagerank_mapper.cc` (with the constants of
`src/graph.h`) together with the properties of its constructor, of `slice_task`
and of `map_task`.

Conventions of the embedding.

* A `std::map` is a lookup function `K → Option V`; `find` is application and
  `operator[]` used as an assignment target is `StdMap.insert`.  The mapper only
  reads `memFBs` and `memZCs` through `operator[]`, which yields a
  value-initialised entry (`Memory::NO_MEMORY`) for an absent key.
* The values of `allGPUs` and `allCPUs` are pointers to vectors; an absent key
  is the null pointer that `operator[]` would insert, and a call through it is
  the error `nullDeref`.
* `unsigned` arithmetic is arithmetic on `Nat` reduced modulo `2 ^ 32`.
* Undefined behaviour, failed assertions and thrown exceptions end the call
  with a `MapperError`.
* Calls into the Legion runtime (the machine queries, the variant lookup,
  instance creation, the failure report, `DefaultMapper::slice_task`) are
  parameters, collected in `Machine` and `Runtime`.
-/

namespace Lux

/-! ## Constants of `graph.h` -/

/-- Capacity bound `MAX_NUM_PARTS` of `graph.h`. -/
def MAX_NUM_PARTS : Nat := 64

/-- Enumerator `LOAD_TASK_ID` of the anonymous enum of `graph.h`. -/
def LOAD_TASK_ID : Nat := 1

/-- Enumerator `SCAN_TASK_ID` of the anonymous enum of `graph.h`. -/
def SCAN_TASK_ID : Nat := 2

/-- Enumerator `INIT_TASK_ID` of the anonymous enum of `graph.h`. -/
def INIT_TASK_ID : Nat := 3

/-- Width of the C++ type `unsigned`. -/
def UNSIGNED_MOD : Nat := 2 ^ 32

/-! ## Data model -/

/-- The processor kinds the mapper distinguishes (`Processor::Kind`); every
kind that reaches the `default:` label of the constructor is `OTHER_PROC`. -/
inductive ProcKind where
  | TOC_PROC
  | LOC_PROC
  | OTHER_PROC
  deriving DecidableEq

/-- A processor handle with the two attributes the mapper asks of it,
`kind()` and `address_space()`. -/
structure Processor where
  id : Nat
  kind : ProcKind
  address_space : Nat
  deriving DecidableEq

/-- A memory handle. -/
structure Memory where
  id : Nat
  deriving DecidableEq

/-- The handle `Memory::NO_MEMORY`. -/
def NO_MEMORY : Memory := ⟨0⟩

/-- One-dimensional rectangle `Rect<1>` with inclusive bounds. -/
structure Rect1 where
  lo : Int
  hi : Int
  deriving DecidableEq

/-- The record `TaskSlice` that `slice_task` fills in. -/
structure TaskSlice where
  domain : Rect1
  proc : Processor
  recurse : Bool
  stealable : Bool
  deriving DecidableEq

/-- A region requirement of a task; the mapper only passes it on. -/
structure RegionRequirement where
  handle : Nat
  deriving DecidableEq

/-- The fields of `Task` that the mapper reads. -/
structure Task where
  task_id : Nat
  target_proc : Processor
  regions : List RegionRequirement
  deriving DecidableEq

/-- The field of `SliceTaskInput` that the mapper reads. -/
structure SliceTaskInput where
  domain : Rect1
  deriving DecidableEq

/-- The field of `SliceTaskOutput` that the mapper writes. -/
structure SliceTaskOutput where
  slices : List TaskSlice
  deriving DecidableEq

/-- The fields of `MapTaskOutput` that `map_task` writes itself
(`chosen_instances` is written by the runtime calls). -/
structure MapTaskOutput where
  chosen_variant : Nat
  task_priority : Int
  postmap_task : Bool
  target_procs : List Processor
  deriving DecidableEq

/-- The ways a call of the mapper ends abnormally. -/
inductive MapperError where
  | assertFailed
  | divByZero
  | nullDeref
  | outOfRange
  | failedInstanceCreation (task : Task) (idx : Nat) (target_proc : Processor) (tgt_mem : Memory)
  deriving DecidableEq

/-- A `std::map` seen through its lookups. -/
abbrev StdMap (K V : Type) : Type := K → Option V

/-- The empty map. -/
def StdMap.empty {K V : Type} : StdMap K V := fun _ => none

/-- The map after `m[k] = v`. -/
def StdMap.insert {K V : Type} [DecidableEq K] (m : StdMap K V) (k : K) (v : V) : StdMap K V :=
  fun x => if x = k then some v else m x

/-- The machine topology as the constructor queries it: the processors in the
order of the `ProcessorQuery`, and for each processor the result of the two
`MemoryQuery` objects it builds. -/
structure Machine where
  /-- Processors in iteration order of `Machine::ProcessorQuery`. -/
  procs : List Processor
  /-- Memories of kind `GPU_FB_MEM` with best affinity to the processor. -/
  fb_query : Processor → List Memory
  /-- Memories of kind `Z_COPY_MEM` with affinity to the processor. -/
  zc_query : Processor → List Memory

/-- The identifier `PAGERANK_TASK_ID` (not among the enumerators of `graph.h`)
and the Legion runtime calls made by `slice_task` and `map_task`. -/
structure Runtime where
  /-- The task identifier `PAGERANK_TASK_ID`. -/
  PAGERANK_TASK_ID : Nat
  /-- Slices chosen by `DefaultMapper::slice_task`. -/
  default_slice_task : Task → SliceTaskInput → List TaskSlice
  /-- Variants returned by `find_valid_variants` for a task id and a kind. -/
  find_valid_variants : Nat → ProcKind → List Nat
  /-- Result of `default_create_custom_instances` for a processor, a memory,
  a region requirement and its index. -/
  create_instances : Processor → Memory → RegionRequirement → Nat → Bool
  /-- Whether `default_report_failed_instance_creation` returns to its caller
  (`true`) or ends the run (`false`). -/
  report_returns : Bool

/-- The state of a `PageRankMapper`: the three members inherited from
`DefaultMapper` that it reads, its own maps, and the two slice caches. -/
structure PageRankMapper where
  numNodes : Nat
  local_gpus : List Processor
  local_cpus : List Processor
  allGPUs : StdMap Nat (List Processor)
  allCPUs : StdMap Nat (List Processor)
  memFBs : StdMap Processor Memory
  memZCs : StdMap Processor Memory
  gpuSlices : List TaskSlice
  cpuSlices : List TaskSlice

/-- Read access `m[k]` on a map of memories. -/
def memAt (m : StdMap Processor Memory) (p : Processor) : Memory :=
  (m p).getD NO_MEMORY

/-! ## The constructor -/

/-- The statement `if (finder == end()) m[node] = new std::vector<Processor>`. -/
def ensureNode (m : StdMap Nat (List Processor)) (node : Nat) : StdMap Nat (List Processor) :=
  match m node with
  | none => m.insert node []
  | some _ => m

/-- The statement `m[node]->push_back(p)`. -/
def pushProc (m : StdMap Nat (List Processor)) (node : Nat) (p : Processor) :
    StdMap Nat (List Processor) :=
  m.insert node ((m node).getD [] ++ [p])

/-- One iteration of the constructor loop, for the processor `p`.  The two
assertions demand a singleton query result; for a CPU the first zero-copy
memory is taken, and an empty query yields `NO_MEMORY`. -/
def addProcessor (machine : Machine) (m : PageRankMapper) (p : Processor) :
    Except MapperError PageRankMapper :=
  let node := p.address_space
  let gpus := ensureNode m.allGPUs node
  let cpus := ensureNode m.allCPUs node
  match p.kind with
  | ProcKind.TOC_PROC =>
    match machine.fb_query p with
    | [fb] =>
      match machine.zc_query p with
      | [zc] =>
        Except.ok { m with
          allGPUs := pushProc gpus node p
          allCPUs := cpus
          memFBs := m.memFBs.insert p fb
          memZCs := m.memZCs.insert p zc }
      | _ => Except.error MapperError.assertFailed
    | _ => Except.error MapperError.assertFailed
  | ProcKind.LOC_PROC =>
    Except.ok { m with
      allGPUs := gpus
      allCPUs := pushProc cpus node p
      memZCs := m.memZCs.insert p ((machine.zc_query p).headD NO_MEMORY) }
  | ProcKind.OTHER_PROC =>
    Except.ok { m with allGPUs := gpus, allCPUs := cpus }

/-- The constructor loop over the processors of the query. -/
def addProcessors (machine : Machine) : List Processor → PageRankMapper →
    Except MapperError PageRankMapper
  | [], m => Except.ok m
  | p :: ps, m =>
    match addProcessor machine m p with
    | Except.error e => Except.error e
    | Except.ok m1 => addProcessors machine ps m1

/-- The constructor `PageRankMapper::PageRankMapper`; `remote_gpus`,
`local_gpus` and `local_cpus` are the members set up by the base class. -/
def PageRankMapper.new (machine : Machine) (remote_gpus local_gpus local_cpus : List Processor) :
    Except MapperError PageRankMapper :=
  addProcessors machine machine.procs
    { numNodes := remote_gpus.length
      local_gpus := local_gpus
      local_cpus := local_cpus
      allGPUs := StdMap.empty
      allCPUs := StdMap.empty
      memFBs := StdMap.empty
      memZCs := StdMap.empty
      gpuSlices := []
      cpuSlices := [] }

/-! ## `slice_task` -/

/-- The node that position `cnt` is sent to: `cnt % numNodes`. -/
def nodeOf (numNodes cnt : Nat) : Nat := cnt % numNodes

/-- The index into the node's processor list for position `cnt`:
`((cnt / numNodes) * 9) % localCount`.  The counter is an `unsigned`, so the
product is reduced modulo `2 ^ 32` (the declaration of `numNodes` is in the
header `pagerank_mapper.h`; for at most `MAX_NUM_PARTS` positions the product
stays below 576 and the reduction changes nothing). -/
def localIndex (numNodes localCount cnt : Nat) : Nat :=
  (((cnt / numNodes) * 9) % UNSIGNED_MOD) % localCount

/-- The expression `all[cnt % numNodes]->at(((cnt/numNodes)*9) % localCount)`:
both operands are evaluated, where a zero divisor is undefined behaviour, then
the call goes through the pointer stored for the node, and `at` checks the
range. -/
def procAt (all : StdMap Nat (List Processor)) (numNodes localCount cnt : Nat) :
    Except MapperError Processor :=
  if numNodes = 0 then Except.error MapperError.divByZero
  else if localCount = 0 then Except.error MapperError.divByZero
  else
    match all (nodeOf numNodes cnt) with
    | none => Except.error MapperError.nullDeref
    | some v =>
      match v[localIndex numNodes localCount cnt]? with
      | none => Except.error MapperError.outOfRange
      | some p => Except.ok p

/-- The points of a rectangle in the order of `PointInRectIterator<1>`:
`lo, lo + 1, ..., hi`, none when `hi < lo`. -/
def Rect1.points (r : Rect1) : List Int :=
  (List.range (r.hi - r.lo + 1).toNat).map (fun (i : Nat) => r.lo + Int.ofNat i)

/-- The body of the loop of `slice_task` apart from the processor lookup: the
slice for the single point `pt`, pinned to `proc`. -/
def pointSlice (pt : Int) (proc : Processor) : TaskSlice :=
  { domain := ⟨pt, pt⟩, proc := proc, recurse := false, stealable := false }

/-- The `for` loop of `slice_task`: `pts` are the points still to visit, `cnt`
the counter and `slices` the cache vector that is being extended. -/
def sliceLoop (all : StdMap Nat (List Processor)) (numNodes localCount : Nat) :
    List Int → Nat → List TaskSlice → Except MapperError (List TaskSlice)
  | [], _, slices => Except.ok slices
  | pt :: pts, cnt, slices =>
    match procAt all numNodes localCount cnt with
    | Except.error e => Except.error e
    | Except.ok proc =>
      sliceLoop all numNodes localCount pts ((cnt + 1) % UNSIGNED_MOD)
        (slices ++ [pointSlice pt proc])

/-- The test `task_id == PAGERANK_TASK_ID || task_id == INIT_TASK_ID`. -/
def isGpuTask (rt : Runtime) (task : Task) : Bool :=
  task.task_id == rt.PAGERANK_TASK_ID || task.task_id == INIT_TASK_ID

/-- The method `PageRankMapper::slice_task`: the new mapper state and the output. -/
def slice_task (rt : Runtime) (m : PageRankMapper) (task : Task) (input : SliceTaskInput) :
    Except MapperError (PageRankMapper × SliceTaskOutput) :=
  if isGpuTask rt task then
    if m.gpuSlices.length > 0 then
      Except.ok (m, { slices := m.gpuSlices })
    else
      match sliceLoop m.allGPUs m.numNodes m.local_gpus.length input.domain.points 0
          m.gpuSlices with
      | Except.error e => Except.error e
      | Except.ok s => Except.ok ({ m with gpuSlices := s }, { slices := s })
  else if task.task_id == LOAD_TASK_ID then
    if m.cpuSlices.length > 0 then
      Except.ok (m, { slices := m.cpuSlices })
    else
      match sliceLoop m.allCPUs m.numNodes m.local_cpus.length input.domain.points 0
          m.cpuSlices with
      | Except.error e => Except.error e
      | Except.ok s => Except.ok ({ m with cpuSlices := s }, { slices := s })
  else
    Except.ok (m, { slices := rt.default_slice_task task input })

/-! ## `map_task` -/

/-- The calls `map_task` makes on the runtime for the regions of a task. -/
inductive MapEvent where
  | create (target_proc : Processor) (tgt_mem : Memory) (req : RegionRequirement) (idx : Nat)
      (ok : Bool)
  | report (task : Task) (idx : Nat) (target_proc : Processor) (tgt_mem : Memory)
  deriving DecidableEq

/-- The memory `tgt_mem` chosen for region `idx` in the branch for
`PAGERANK_TASK_ID` and `INIT_TASK_ID`. -/
def gpuTgtMem (m : PageRankMapper) (task : Task) (idx : Nat) : Memory :=
  if idx < 3 then memAt m.memFBs task.target_proc else memAt m.memZCs task.target_proc

/-- The memory `tgt_mem` chosen for region `idx` in the branch for
`LOAD_TASK_ID` and `SCAN_TASK_ID`. -/
def cpuTgtMem (m : PageRankMapper) (task : Task) (_idx : Nat) : Memory :=
  memAt m.memZCs task.target_proc

/-- The region loop shared by the two branches of `map_task`: `idx` is the
loop counter, the list holds `task.regions[idx], ...`, and `tgt` gives the
memory of the branch.  The result is the calls made and the error, if any,
that ended the loop. -/
def mapLoop (rt : Runtime) (task : Task) (tgt : Nat → Memory) :
    Nat → List RegionRequirement → List MapEvent × Option MapperError
  | _, [] => ([], none)
  | idx, req :: reqs =>
    let tgt_mem := tgt idx
    if rt.create_instances task.target_proc tgt_mem req idx then
      let rest := mapLoop rt task tgt (idx + 1) reqs
      (MapEvent.create task.target_proc tgt_mem req idx true :: rest.1, rest.2)
    else if rt.report_returns then
      let rest := mapLoop rt task tgt (idx + 1) reqs
      (MapEvent.create task.target_proc tgt_mem req idx false ::
        MapEvent.report task idx task.target_proc tgt_mem :: rest.1, rest.2)
    else
      ([MapEvent.create task.target_proc tgt_mem req idx false,
        MapEvent.report task idx task.target_proc tgt_mem],
       some (MapperError.failedInstanceCreation task idx task.target_proc tgt_mem))

/-- What a call of `map_task` did: the runtime calls on regions, the output
record when the call returned, the error when it did not. -/
structure MapTaskResult where
  events : List MapEvent
  status : Except MapperError MapTaskOutput

/-- The method `PageRankMapper::map_task`, applied to the output record
`output` handed in by the runtime. -/
def map_task (rt : Runtime) (m : PageRankMapper) (task : Task) (output : MapTaskOutput) :
    MapTaskResult :=
  match rt.find_valid_variants task.task_id task.target_proc.kind with
  | [variant] =>
    let out : MapTaskOutput :=
      { chosen_variant := variant
        task_priority := 0
        postmap_task := false
        target_procs := output.target_procs ++ [task.target_proc] }
    if isGpuTask rt task then
      if task.target_proc.kind = ProcKind.TOC_PROC then
        let r := mapLoop rt task (gpuTgtMem m task) 0 task.regions
        match r.2 with
        | none => { events := r.1, status := Except.ok out }
        | some e => { events := r.1, status := Except.error e }
      else { events := [], status := Except.error MapperError.assertFailed }
    else if task.task_id == LOAD_TASK_ID || task.task_id == SCAN_TASK_ID then
      if task.target_proc.kind = ProcKind.LOC_PROC then
        let r := mapLoop rt task (cpuTgtMem m task) 0 task.regions
        match r.2 with
        | none => { events := r.1, status := Except.ok out }
        | some e => { events := r.1, status := Except.error e }
      else { events := [], status := Except.error MapperError.assertFailed }
    else { events := [], status := Except.ok out }
  | _ => { events := [], status := Except.error MapperError.assertFailed }

/-! ## Predicates used in the statements -/

/-- Every processor stored under key `n` has address space `n` and kind `k`. -/
def NodeInv (all : StdMap Nat (List Processor)) (k : ProcKind) : Prop :=
  ∀ (n : Nat) (v : List Processor), all n = some v →
    ∀ p, p ∈ v → p.address_space = n ∧ p.kind = k

/-- A GPU whose frame-buffer query or zero-copy query is not a singleton. -/
def BadGpu (machine : Machine) (g : Processor) : Prop :=
  g.kind = ProcKind.TOC_PROC ∧
    ((machine.fb_query g).length ≠ 1 ∨ (machine.zc_query g).length ≠ 1)

/-- The memory maps of `m` agree with the machine queries at processor `p`:
for a GPU both queries are the singleton of the stored memory, for a CPU with
a zero-copy memory the stored memory is one of them. -/
def MemInv (machine : Machine) (m : PageRankMapper) (p : Processor) : Prop :=
  (p.kind = ProcKind.TOC_PROC →
    machine.fb_query p = [memAt m.memFBs p] ∧ machine.zc_query p = [memAt m.memZCs p]) ∧
  (p.kind = ProcKind.LOC_PROC → machine.zc_query p ≠ [] →
    memAt m.memZCs p ∈ machine.zc_query p)

/-- Whether an event is an instance-creation attempt for region `idx`. -/
def MapEvent.isCreateAt (idx : Nat) : MapEvent → Bool
  | MapEvent.create _ _ _ i _ => i == idx
  | MapEvent.report _ _ _ _ => false

/-- The number of instance-creation attempts for region `idx` among `events`. -/
def createCount (events : List MapEvent) (idx : Nat) : Nat :=
  events.countP (MapEvent.isCreateAt idx)

/-- The region loop gets as far as region `idx`: the failure report returns
to its caller, or creation succeeds for every earlier region. -/
def ReachesRegion (rt : Runtime) (task : Task) (tgt : Nat → Memory) (idx : Nat) : Prop :=
  rt.report_returns = true ∨
    ∀ (j : Nat) (req : RegionRequirement), j < idx → task.regions[j]? = some req →
      rt.create_instances task.target_proc (tgt j) req j = true

/-- The memory the binding rule of `map_task` gives region `idx` of `task`. -/
def tgtMem (rt : Runtime) (m : PageRankMapper) (task : Task) (idx : Nat) : Memory :=
  if isGpuTask rt task then gpuTgtMem m task idx else cpuTgtMem m task idx

/-- The task passes the assertions of `map_task` and enters one of its two
region loops: one valid variant, and a GPU target for the GPU branch or a CPU
target for the branch of `LOAD_TASK_ID` and `SCAN_TASK_ID`. -/
def Supported (rt : Runtime) (task : Task) : Prop :=
  (∃ v, rt.find_valid_variants task.task_id task.target_proc.kind = [v]) ∧
    ((isGpuTask rt task = true ∧ task.target_proc.kind = ProcKind.TOC_PROC) ∨
     (isGpuTask rt task = false ∧
        (task.task_id = LOAD_TASK_ID ∨ task.task_id = SCAN_TASK_ID) ∧
        task.target_proc.kind = ProcKind.LOC_PROC))

/-- The cluster is homogeneous for the lookups of `slice_task`: at least one
node, at least one local processor, and every node below `numNodes` has an
entry with at least `localCount` processors. -/
def Homogeneous (all : StdMap Nat (List Processor)) (numNodes localCount : Nat) : Prop :=
  1 ≤ numNodes ∧ 1 ≤ localCount ∧
    ∀ n, n < numNodes → ∃ v, all n = some v ∧ localCount ≤ v.length

/-- The two task categories that `slice_task` slices itself: the GPU branch
(`PAGERANK_TASK_ID`, `INIT_TASK_ID`) and the CPU branch (`LOAD_TASK_ID`). -/
inductive Category where
  | gpu
  | cpu
  deriving DecidableEq

/-- The branch of `slice_task` a task takes, `none` for the final `else`. -/
def categoryOf (rt : Runtime) (task : Task) : Option Category :=
  if isGpuTask rt task then some Category.gpu
  else if task.task_id == LOAD_TASK_ID then some Category.cpu
  else none

/-- The processor kind a branch places its tasks on. -/
def Category.kind : Category → ProcKind
  | Category.gpu => ProcKind.TOC_PROC
  | Category.cpu => ProcKind.LOC_PROC

/-- The per-node processor table a branch reads: `allGPUs` or `allCPUs`. -/
def Category.procs : Category → PageRankMapper → StdMap Nat (List Processor)
  | Category.gpu, m => m.allGPUs
  | Category.cpu, m => m.allCPUs

/-- The local processor count of a branch: `local_gpus.size()` or
`local_cpus.size()`. -/
def Category.localCount : Category → PageRankMapper → Nat
  | Category.gpu, m => m.local_gpus.length
  | Category.cpu, m => m.local_cpus.length

/-- The slice cache of a branch: `gpuSlices` or `cpuSlices`. -/
def Category.cache : Category → PageRankMapper → List TaskSlice
  | Category.gpu, m => m.gpuSlices
  | Category.cpu, m => m.cpuSlices

/-- The slice cache of the other branch. -/
def Category.otherCache : Category → PageRankMapper → List TaskSlice
  | Category.gpu, m => m.cpuSlices
  | Category.cpu, m => m.gpuSlices

/-- The mapper with the cache of a branch replaced. -/
def Category.setCache : Category → PageRankMapper → List TaskSlice → PageRankMapper
  | Category.gpu, m, s => { m with gpuSlices := s }
  | Category.cpu, m, s => { m with cpuSlices := s }

/-- A run of successive `slice_task` calls on one mapper; the state after the
last call. -/
def sliceCalls (rt : Runtime) : PageRankMapper → List (Task × SliceTaskInput) →
    Except MapperError PageRankMapper
  | m, [] => Except.ok m
  | m, call :: calls =>
    match slice_task rt m call.1 call.2 with
    | Except.error e => Except.error e
    | Except.ok r => sliceCalls rt r.1 calls

/-! ## Concrete configurations -/

/-- A GPU handle with the given id on the given node. -/
def demoGpu (id node : Nat) : Processor := ⟨id, ProcKind.TOC_PROC, node⟩

/-- A CPU handle with the given id on the given node. -/
def demoCpu (id node : Nat) : Processor := ⟨id, ProcKind.LOC_PROC, node⟩

/-- Two nodes with two GPUs and one CPU each; every GPU has one frame buffer
and every processor sees the zero-copy memory of its node. -/
def demoMachine : Machine :=
  { procs := [demoGpu 1 0, demoGpu 2 0, demoCpu 3 0, demoGpu 4 1, demoGpu 5 1, demoCpu 6 1]
    fb_query := fun p => [⟨100 + p.id⟩]
    zc_query := fun p => [⟨200 + p.address_space⟩] }

/-- The machine `demoMachine` with one more GPU, on node 1, that has a frame
buffer but no zero-copy memory with affinity to it. -/
def brokenMachine : Machine :=
  { procs := demoMachine.procs ++ [demoGpu 7 1]
    fb_query := fun p => [⟨100 + p.id⟩]
    zc_query := fun p => if p.id = 7 then [] else [⟨200 + p.address_space⟩] }

/-- A mapper state without processors, memories or cached slices. -/
def blankMapper : PageRankMapper :=
  { numNodes := 0
    local_gpus := []
    local_cpus := []
    allGPUs := StdMap.empty
    allCPUs := StdMap.empty
    memFBs := StdMap.empty
    memZCs := StdMap.empty
    gpuSlices := []
    cpuSlices := [] }

/-- The mapper the constructor builds on `demoMachine` for a processor of
node 0. -/
def demoMapper : PageRankMapper :=
  match PageRankMapper.new demoMachine [demoGpu 1 0, demoGpu 4 1]
      [demoGpu 1 0, demoGpu 2 0] [demoCpu 3 0] with
  | Except.ok m => m
  | Except.error _ => blankMapper

/-- A runtime in which `PAGERANK_TASK_ID` is 4, one variant is valid for every
task, and every instance creation succeeds. -/
def demoRuntime : Runtime :=
  { PAGERANK_TASK_ID := 4
    default_slice_task := fun _ _ => []
    find_valid_variants := fun _ _ => [0]
    create_instances := fun _ _ _ _ => true
    report_returns := false }

/-- The runtime `demoRuntime` with memories too small for region 1: creation
fails there, and the failure report ends the run. -/
def tightRuntime : Runtime :=
  { demoRuntime with create_instances := fun _ _ _ idx => idx != 1 }

/-- An `INIT_TASK_ID` point task with four regions, targeted at a GPU. -/
def demoInitTask : Task :=
  { task_id := INIT_TASK_ID, target_proc := demoGpu 1 0, regions := [⟨10⟩, ⟨11⟩, ⟨12⟩, ⟨13⟩] }

/-- A `LOAD_TASK_ID` point task with two regions, targeted at a CPU. -/
def demoLoadTask : Task :=
  { task_id := LOAD_TASK_ID, target_proc := demoCpu 3 0, regions := [⟨20⟩, ⟨21⟩] }

/-- An `INIT_TASK_ID` task with one region whose target is a CPU. -/
def misplacedTask : Task :=
  { task_id := INIT_TASK_ID, target_proc := demoCpu 3 0, regions := [⟨10⟩] }

/-- An empty output record as the runtime hands it to `map_task`. -/
def blankOutput : MapTaskOutput :=
  { chosen_variant := 0, task_priority := 0, postmap_task := false, target_procs := [] }

/-- The launch domain `[0, 3]` of four partitions. -/
def demoInput : SliceTaskInput := ⟨⟨0, 3⟩⟩

/-- The launch domain `[0, 5]` of six partitions. -/
def widerInput : SliceTaskInput := ⟨⟨0, 5⟩⟩

/-- The result of the first `INIT_TASK_ID` launch over `demoInput`. -/
def demoSliced : PageRankMapper × SliceTaskOutput :=
  match slice_task demoRuntime demoMapper demoInitTask demoInput with
  | Except.ok r => r
  | Except.error _ => (blankMapper, { slices := [] })

/-- A mapper of a two-node cluster whose local node has three GPUs while
node 0 holds a single one. -/
def lopsidedMapper : PageRankMapper :=
  { blankMapper with
    numNodes := 2
    local_gpus := [demoGpu 4 1, demoGpu 5 1, demoGpu 6 1]
    allGPUs := fun n =>
      if n = 0 then some [demoGpu 1 0]
      else if n = 1 then some [demoGpu 4 1, demoGpu 5 1, demoGpu 6 1]
      else none }

/-- A mapper of a one-node cluster with two local GPUs of which `allGPUs`
lists only one. -/
def shortMapper : PageRankMapper :=
  { blankMapper with
    numNodes := 1
    local_gpus := [demoGpu 1 0, demoGpu 2 0]
    allGPUs := fun n => if n = 0 then some [demoGpu 1 0] else none }

/-! ## Arithmetic of the stride formula -/

theorem localIndex_of_small (N L k : Nat) (hk : k < MAX_NUM_PARTS) :
    localIndex N L k = ((k / N) * 9) % L := by
  unfold localIndex UNSIGNED_MOD
  unfold MAX_NUM_PARTS at hk
  have h1 : k / N ≤ k := Nat.div_le_self k N
  have h2 : (k / N) * 9 < 2 ^ 32 := by omega
  rw [Nat.mod_eq_of_lt h2]

theorem coprime_nine_iff (L : Nat) : Nat.gcd 9 L = 1 ↔ ¬ 3 ∣ L := by
  have h9 : (9 : Nat) = 3 ^ 2 := by norm_num
  have h : Nat.Coprime (3 ^ 2) L ↔ Nat.Coprime 3 L :=
    Nat.coprime_pow_left_iff (by norm_num) 3 L
  have h3 : Nat.Coprime 3 L ↔ ¬ 3 ∣ L := Nat.Prime.coprime_iff_not_dvd Nat.prime_three
  rw [h9]
  exact h.trans h3

theorem quot_lt_of_lt_mul (N L k : Nat) (hk : k < N * L) : k / N < L :=
  Nat.div_lt_of_lt_mul hk

theorem stride_cancel (L q1 q2 : Nat) (hc : Nat.gcd 9 L = 1) (h1 : q1 < L) (h2 : q2 < L)
    (h : (q1 * 9) % L = (q2 * 9) % L) : q1 = q2 := by
  have hm : 9 * q1 ≡ 9 * q2 [MOD L] := by
    unfold Nat.ModEq
    rw [Nat.mul_comm 9 q1, Nat.mul_comm 9 q2]
    exact h
  have hg : Nat.gcd L 9 = 1 := by rw [Nat.gcd_comm]; exact hc
  have hq : q1 ≡ q2 [MOD L] := Nat.ModEq.cancel_left_of_coprime hg hm
  unfold Nat.ModEq at hq
  rw [Nat.mod_eq_of_lt h1, Nat.mod_eq_of_lt h2] at hq
  exact hq

theorem stride_injective (N L : Nat) (hNL : N * L ≤ MAX_NUM_PARTS) (hc : Nat.gcd 9 L = 1)
    (k1 k2 : Nat) (h1 : k1 < N * L) (h2 : k2 < N * L)
    (hn : nodeOf N k1 = nodeOf N k2) (hl : localIndex N L k1 = localIndex N L k2) :
    k1 = k2 := by
  rw [localIndex_of_small N L k1 (by omega), localIndex_of_small N L k2 (by omega)] at hl
  have hq : k1 / N = k2 / N :=
    stride_cancel L _ _ hc (quot_lt_of_lt_mul N L k1 h1) (quot_lt_of_lt_mul N L k2 h2) hl
  unfold nodeOf at hn
  have e1 := Nat.div_add_mod k1 N
  have e2 := Nat.div_add_mod k2 N
  rw [hq, hn] at e1
  omega

theorem position_of_slot (N q n : Nat) (hn : n < N) :
    nodeOf N (q * N + n) = n ∧ (q * N + n) / N = q := by
  have hN : 0 < N := by omega
  unfold nodeOf
  constructor
  · rw [Nat.mul_comm, Nat.mul_add_mod, Nat.mod_eq_of_lt hn]
  · rw [Nat.mul_comm, Nat.mul_add_div hN, Nat.div_eq_of_lt hn, Nat.add_zero]

theorem position_lt (N L q n : Nat) (hn : n < N) (hq : q < L) : q * N + n < N * L := by
  have h : (q + 1) * N ≤ L * N := Nat.mul_le_mul_right N hq
  have h2 : (q + 1) * N = q * N + N := by ring
  have h3 : L * N = N * L := Nat.mul_comm L N
  omega

theorem stride_onto (L j : Nat) (hc : Nat.gcd 9 L = 1) (hj : j < L) :
    ∃ q, q < L ∧ (q * 9) % L = j := by
  by_cases hL : L = 1
  · subst hL
    exact ⟨0, by omega, by omega⟩
  · have hL1 : 1 < L := by omega
    obtain ⟨c, hcm⟩ := Nat.exists_mul_emod_eq_one_of_coprime hc hL1
    refine ⟨(c * j) % L, Nat.mod_lt _ (by omega), ?_⟩
    have e1 : ((c * j) % L * 9) % L = (9 * c * j) % L := by
      rw [Nat.mod_mul_mod]
      congr 1
      ring
    have e2 : (9 * c * j) % L = ((9 * c) % L * j) % L := by
      rw [Nat.mod_mul_mod]
    rw [e1, e2, hcm, Nat.one_mul, Nat.mod_eq_of_lt hj]

theorem stride_hits (N L : Nat) (hNL : N * L ≤ MAX_NUM_PARTS) (hc : Nat.gcd 9 L = 1)
    (n j : Nat) (hn : n < N) (hj : j < L) :
    ∃ k, k < N * L ∧ nodeOf N k = n ∧ localIndex N L k = j := by
  obtain ⟨q, hq, hqj⟩ := stride_onto L j hc hj
  have hk := position_lt N L q n hn hq
  obtain ⟨e1, e2⟩ := position_of_slot N q n hn
  refine ⟨q * N + n, hk, e1, ?_⟩
  rw [localIndex_of_small N L _ (by omega), e2, hqj]

theorem stride_collision (N L : Nat) (hNL : N * L ≤ MAX_NUM_PARTS) (hL : 1 ≤ L) (h3 : 3 ∣ L)
    (n : Nat) (hn : n < N) :
    n < N * L ∧ (L / 3) * N + n < N * L ∧ n ≠ (L / 3) * N + n ∧
      nodeOf N n = n ∧ nodeOf N ((L / 3) * N + n) = n ∧
      localIndex N L n = localIndex N L ((L / 3) * N + n) := by
  obtain ⟨m, rfl⟩ := h3
  have hm : 1 ≤ m := by omega
  have hdiv : 3 * m / 3 = m := by omega
  rw [hdiv]
  have hk2 := position_lt N (3 * m) m n hn (by omega)
  have hk1 : n < N * (3 * m) := by
    have := position_lt N (3 * m) 0 n hn (by omega)
    omega
  obtain ⟨e1, e2⟩ := position_of_slot N m n hn
  obtain ⟨f1, f2⟩ := position_of_slot N 0 n hn
  simp only [Nat.zero_mul, Nat.zero_add] at f1 f2
  have hne : n ≠ m * N + n := by
    have : 1 * N ≤ m * N := Nat.mul_le_mul_right N hm
    omega
  refine ⟨hk1, hk2, hne, f1, e1, ?_⟩
  rw [localIndex_of_small N _ _ (by omega), localIndex_of_small N _ _ (by omega), e2, f2]
  have : m * 9 = 3 * m * 3 := by ring
  rw [this, Nat.mul_mod_right, Nat.zero_mul, Nat.zero_mod]

theorem stride_multiple_of_three (N L k : Nat) (hk : k < MAX_NUM_PARTS) (h3 : 3 ∣ L) :
    3 ∣ localIndex N L k := by
  rw [localIndex_of_small N L k hk]
  have h9 : 3 ∣ (k / N) * 9 := Dvd.dvd.mul_left (by norm_num) _
  exact (Nat.dvd_mod_iff h3).mpr h9

theorem stride_degenerate (N L k : Nat) (hk : k < MAX_NUM_PARTS) (hL : L = 3 ∨ L = 9) :
    localIndex N L k = 0 := by
  rw [localIndex_of_small N L k hk]
  rcases hL with rfl | rfl <;> omega

/-! ## The loop of `slice_task` -/

theorem sliceLoop_cons (all : StdMap Nat (List Processor)) (N L : Nat) (pt : Int)
    (pts : List Int) (cnt : Nat) (acc : List TaskSlice) (proc : Processor)
    (hp : procAt all N L cnt = Except.ok proc) :
    sliceLoop all N L (pt :: pts) cnt acc =
      sliceLoop all N L pts ((cnt + 1) % UNSIGNED_MOD) (acc ++ [pointSlice pt proc]) := by
  rw [sliceLoop, hp]

theorem sliceLoop_first_error (all : StdMap Nat (List Processor)) (N L : Nat) (pt : Int)
    (pts : List Int) (cnt : Nat) (acc : List TaskSlice) (e : MapperError)
    (h : procAt all N L cnt = Except.error e) :
    sliceLoop all N L (pt :: pts) cnt acc = Except.error e := by
  rw [sliceLoop, h]

theorem sliceLoop_extends (all : StdMap Nat (List Processor)) (N L : Nat) :
    ∀ (pts : List Int) (cnt : Nat) (acc s : List TaskSlice),
      sliceLoop all N L pts cnt acc = Except.ok s →
      ∃ t, s = acc ++ t ∧ t.length = pts.length := by
  intro pts
  induction pts with
  | nil =>
    intro cnt acc s h
    simp only [sliceLoop, Except.ok.injEq] at h
    exact ⟨[], by simp [h], rfl⟩
  | cons pt pts ih =>
    intro cnt acc s h
    cases hp : procAt all N L cnt with
    | error e =>
      rw [sliceLoop_first_error all N L pt pts cnt acc e hp] at h
      cases h
    | ok proc =>
      rw [sliceLoop_cons all N L pt pts cnt acc proc hp] at h
      obtain ⟨t, ht, hlen⟩ := ih _ _ _ h
      refine ⟨pointSlice pt proc :: t, ?_, by simp [hlen]⟩
      rw [ht, List.append_assoc]
      rfl

theorem sliceLoop_get (all : StdMap Nat (List Processor)) (N L : Nat) :
    ∀ (pts : List Int) (cnt : Nat) (acc s : List TaskSlice),
      cnt < UNSIGNED_MOD →
      sliceLoop all N L pts cnt acc = Except.ok s →
      ∀ (i : Nat) (hi : i < pts.length), ∃ proc,
        procAt all N L ((cnt + i) % UNSIGNED_MOD) = Except.ok proc ∧
        s[acc.length + i]? = some (pointSlice pts[i] proc) := by
  intro pts
  induction pts with
  | nil =>
    intro cnt acc s _ _ i hi
    simp at hi
  | cons pt pts ih =>
    intro cnt acc s hc h i hi
    cases hp : procAt all N L cnt with
    | error e =>
      rw [sliceLoop_first_error all N L pt pts cnt acc e hp] at h
      cases h
    | ok proc =>
      rw [sliceLoop_cons all N L pt pts cnt acc proc hp] at h
      have hM : 0 < UNSIGNED_MOD := by unfold UNSIGNED_MOD; norm_num
      cases i with
      | zero =>
        obtain ⟨t, ht, _⟩ := sliceLoop_extends all N L _ _ _ _ h
        refine ⟨proc, ?_, ?_⟩
        · rw [Nat.add_zero, Nat.mod_eq_of_lt hc]
          exact hp
        · rw [ht, List.append_assoc, Nat.add_zero,
            List.getElem?_append_right (Nat.le_refl _), Nat.sub_self]
          simp
      | succ j =>
        have hj : j < pts.length := by simpa using hi
        obtain ⟨q, hq1, hq2⟩ := ih _ _ _ (Nat.mod_lt _ hM) h j hj
        refine ⟨q, ?_, ?_⟩
        · have e : ((cnt + 1) % UNSIGNED_MOD + j) % UNSIGNED_MOD =
              (cnt + (j + 1)) % UNSIGNED_MOD := by
            rw [Nat.mod_add_mod]
            congr 1
            omega
          rw [← e]
          exact hq1
        · have e : (acc ++ [pointSlice pt proc]).length + j = acc.length + (j + 1) := by
            simp
            omega
          rw [e] at hq2
          simpa using hq2

theorem sliceLoop_ok (all : StdMap Nat (List Processor)) (N L : Nat)
    (hp : ∀ c, ∃ p, procAt all N L c = Except.ok p) :
    ∀ (pts : List Int) (cnt : Nat) (acc : List TaskSlice),
      ∃ s, sliceLoop all N L pts cnt acc = Except.ok s := by
  intro pts
  induction pts with
  | nil =>
    intro cnt acc
    exact ⟨acc, rfl⟩
  | cons pt pts ih =>
    intro cnt acc
    obtain ⟨p, hpc⟩ := hp cnt
    unfold sliceLoop
    rw [hpc]
    exact ih _ _

theorem procAt_ok (all : StdMap Nat (List Processor)) (N L : Nat) (hN : 1 ≤ N) (hL : 1 ≤ L)
    (hall : ∀ n, n < N → ∃ v, all n = some v ∧ L ≤ v.length) (c : Nat) :
    ∃ p, procAt all N L c = Except.ok p := by
  have hlt : nodeOf N c < N := Nat.mod_lt _ (by omega)
  obtain ⟨v, hv, hlen⟩ := hall _ hlt
  have hidx : localIndex N L c < v.length :=
    Nat.lt_of_lt_of_le (Nat.mod_lt _ (by omega)) hlen
  refine ⟨v[localIndex N L c], ?_⟩
  unfold procAt
  rw [if_neg (by omega), if_neg (by omega), hv]
  simp only
  rw [List.getElem?_eq_getElem hidx]

theorem procAt_mem (all : StdMap Nat (List Processor)) (N L c : Nat) (p : Processor)
    (h : procAt all N L c = Except.ok p) :
    0 < N ∧ 0 < L ∧ ∃ v, all (nodeOf N c) = some v ∧
      v[localIndex N L c]? = some p := by
  unfold procAt at h
  by_cases hN : N = 0
  · rw [if_pos hN] at h; cases h
  · rw [if_neg hN] at h
    by_cases hL : L = 0
    · rw [if_pos hL] at h; cases h
    · rw [if_neg hL] at h
      cases hv : all (nodeOf N c) with
      | none => rw [hv] at h; cases h
      | some v =>
        rw [hv] at h
        simp only at h
        cases hg : v[localIndex N L c]? with
        | none => rw [hg] at h; cases h
        | some q =>
          rw [hg] at h
          simp only [Except.ok.injEq] at h
          subst h
          exact ⟨by omega, by omega, v, rfl, hg⟩

theorem points_length (r : Rect1) : r.points.length = (r.hi - r.lo + 1).toNat := by
  simp [Rect1.points]

theorem points_get (r : Rect1) (i : Nat) (hi : i < r.points.length) :
    r.points[i] = r.lo + (i : Int) := by
  simp [Rect1.points]

/-! ## The constructor -/

theorem insert_same {K V : Type} [DecidableEq K] (m : StdMap K V) (k : K) (v : V) :
    (m.insert k v) k = some v := by
  simp [StdMap.insert]

theorem insert_other {K V : Type} [DecidableEq K] (m : StdMap K V) (k x : K) (v : V)
    (h : x ≠ k) : (m.insert k v) x = m x := by
  simp [StdMap.insert, h]

theorem memAt_insert_same (m : StdMap Processor Memory) (p : Processor) (v : Memory) :
    memAt (m.insert p v) p = v := by
  simp [memAt, insert_same]

theorem memAt_insert_other (m : StdMap Processor Memory) (p q : Processor) (v : Memory)
    (h : q ≠ p) : memAt (m.insert p v) q = memAt m q := by
  simp [memAt, insert_other m p q v h]

theorem nodeInv_empty (k : ProcKind) : NodeInv StdMap.empty k := by
  intro n v h
  cases h

theorem ensureNode_of_none (all : StdMap Nat (List Processor)) (node : Nat)
    (h : all node = none) : ensureNode all node = all.insert node [] := by
  unfold ensureNode
  rw [h]

theorem ensureNode_of_some (all : StdMap Nat (List Processor)) (node : Nat)
    (w : List Processor) (h : all node = some w) : ensureNode all node = all := by
  unfold ensureNode
  rw [h]

theorem nodeInv_ensure (all : StdMap Nat (List Processor)) (k : ProcKind) (node : Nat)
    (h : NodeInv all k) : NodeInv (ensureNode all node) k := by
  cases hn : all node with
  | some w =>
    rw [ensureNode_of_some all node w hn]
    exact h
  | none =>
    rw [ensureNode_of_none all node hn]
    intro n v hv p hp
    by_cases e : n = node
    · subst e
      rw [insert_same] at hv
      cases hv
      cases hp
    · rw [insert_other _ _ _ _ e] at hv
      exact h n v hv p hp

theorem nodeInv_push (all : StdMap Nat (List Processor)) (k : ProcKind) (p : Processor)
    (h : NodeInv all k) (hk : p.kind = k) : NodeInv (pushProc all p.address_space p) k := by
  intro n v hv q hq
  unfold pushProc at hv
  by_cases e : n = p.address_space
  · subst e
    rw [insert_same] at hv
    cases hv
    rcases List.mem_append.mp hq with h1 | h1
    · cases hn : all p.address_space with
      | none => rw [hn] at h1; cases h1
      | some w =>
        rw [hn] at h1
        exact h _ w hn q h1
    · have : q = p := by simpa using h1
      subst this
      exact ⟨rfl, hk⟩
  · rw [insert_other _ _ _ _ e] at hv
    exact h n v hv q hq

theorem addProcessor_error_iff (machine : Machine) (m : PageRankMapper) (p : Processor) :
    (∃ e, addProcessor machine m p = Except.error e) ↔ BadGpu machine p := by
  unfold addProcessor BadGpu
  cases hk : p.kind with
  | TOC_PROC =>
    simp only [true_and]
    cases hf : machine.fb_query p with
    | nil => simp
    | cons fb fbs =>
      cases fbs with
      | cons fb2 fbs2 => simp
      | nil =>
        cases hz : machine.zc_query p with
        | nil => simp
        | cons zc zcs =>
          cases zcs with
          | cons zc2 zcs2 => simp
          | nil => simp
  | LOC_PROC => simp
  | OTHER_PROC => simp

theorem addProcessor_error_eq (machine : Machine) (m : PageRankMapper) (p : Processor)
    (e : MapperError) (h : addProcessor machine m p = Except.error e) :
    e = MapperError.assertFailed := by
  unfold addProcessor at h
  split at h
  · split at h
    · split at h
      · cases h
      · cases h; rfl
    · cases h; rfl
  · cases h
  · cases h

theorem addProcessors_error_iff (machine : Machine) :
    ∀ (ps : List Processor) (m : PageRankMapper),
      (∃ e, addProcessors machine ps m = Except.error e) ↔ ∃ g, g ∈ ps ∧ BadGpu machine g := by
  intro ps
  induction ps with
  | nil =>
    intro m
    simp [addProcessors]
  | cons p ps ih =>
    intro m
    unfold addProcessors
    cases hp : addProcessor machine m p with
    | error e =>
      have hb : BadGpu machine p := (addProcessor_error_iff machine m p).mp ⟨e, hp⟩
      simp only [Except.error.injEq, exists_eq', true_iff]
      exact ⟨p, List.mem_cons_self _ _, hb⟩
    | ok m1 =>
      have hb : ¬ BadGpu machine p := by
        intro hb
        obtain ⟨e, he⟩ := (addProcessor_error_iff machine m p).mpr hb
        rw [hp] at he
        cases he
      simp only
      rw [ih m1]
      constructor
      · rintro ⟨g, hg, hbg⟩
        exact ⟨g, List.mem_cons_of_mem _ hg, hbg⟩
      · rintro ⟨g, hg, hbg⟩
        rcases List.mem_cons.mp hg with rfl | hg
        · exact absurd hbg hb
        · exact ⟨g, hg, hbg⟩

theorem addProcessors_error_eq (machine : Machine) :
    ∀ (ps : List Processor) (m : PageRankMapper) (e : MapperError),
      addProcessors machine ps m = Except.error e → e = MapperError.assertFailed := by
  intro ps
  induction ps with
  | nil =>
    intro m e h
    cases h
  | cons p ps ih =>
    intro m e h
    unfold addProcessors at h
    cases hp : addProcessor machine m p with
    | error e1 =>
      rw [hp] at h
      simp only [Except.error.injEq] at h
      subst h
      exact addProcessor_error_eq machine m p _ hp
    | ok m1 =>
      rw [hp] at h
      exact ih m1 e h

theorem addProcessor_toc (machine : Machine) (m m1 : PageRankMapper) (p : Processor)
    (hk : p.kind = ProcKind.TOC_PROC) (h : addProcessor machine m p = Except.ok m1) :
    ∃ fb zc, machine.fb_query p = [fb] ∧ machine.zc_query p = [zc] ∧
      m1 = { m with
        allGPUs := pushProc (ensureNode m.allGPUs p.address_space) p.address_space p
        allCPUs := ensureNode m.allCPUs p.address_space
        memFBs := m.memFBs.insert p fb
        memZCs := m.memZCs.insert p zc } := by
  unfold addProcessor at h
  rw [hk] at h
  simp only at h
  split at h
  · split at h
    · rename_i x fb hf y zc hz
      simp only [Except.ok.injEq] at h
      exact ⟨fb, zc, hf, hz, h.symm⟩
    · cases h
  · cases h

theorem addProcessor_loc (machine : Machine) (m : PageRankMapper) (p : Processor)
    (hk : p.kind = ProcKind.LOC_PROC) :
    addProcessor machine m p = Except.ok { m with
      allGPUs := ensureNode m.allGPUs p.address_space
      allCPUs := pushProc (ensureNode m.allCPUs p.address_space) p.address_space p
      memZCs := m.memZCs.insert p ((machine.zc_query p).headD NO_MEMORY) } := by
  unfold addProcessor
  rw [hk]

theorem addProcessor_other (machine : Machine) (m : PageRankMapper) (p : Processor)
    (hk : p.kind = ProcKind.OTHER_PROC) :
    addProcessor machine m p = Except.ok { m with
      allGPUs := ensureNode m.allGPUs p.address_space
      allCPUs := ensureNode m.allCPUs p.address_space } := by
  unfold addProcessor
  rw [hk]

theorem addProcessor_frame (machine : Machine) (m m1 : PageRankMapper) (p : Processor)
    (h : addProcessor machine m p = Except.ok m1) :
    m1.numNodes = m.numNodes ∧ m1.local_gpus = m.local_gpus ∧ m1.local_cpus = m.local_cpus ∧
      m1.gpuSlices = m.gpuSlices ∧ m1.cpuSlices = m.cpuSlices := by
  cases hk : p.kind with
  | TOC_PROC =>
    obtain ⟨fb, zc, _, _, rfl⟩ := addProcessor_toc machine m m1 p hk h
    exact ⟨rfl, rfl, rfl, rfl, rfl⟩
  | LOC_PROC =>
    rw [addProcessor_loc machine m p hk] at h
    cases h
    exact ⟨rfl, rfl, rfl, rfl, rfl⟩
  | OTHER_PROC =>
    rw [addProcessor_other machine m p hk] at h
    cases h
    exact ⟨rfl, rfl, rfl, rfl, rfl⟩

theorem addProcessor_nodeInv (machine : Machine) (m m1 : PageRankMapper) (p : Processor)
    (h : addProcessor machine m p = Except.ok m1)
    (hg : NodeInv m.allGPUs ProcKind.TOC_PROC) (hc : NodeInv m.allCPUs ProcKind.LOC_PROC) :
    NodeInv m1.allGPUs ProcKind.TOC_PROC ∧ NodeInv m1.allCPUs ProcKind.LOC_PROC := by
  have eg := nodeInv_ensure m.allGPUs _ p.address_space hg
  have ec := nodeInv_ensure m.allCPUs _ p.address_space hc
  cases hk : p.kind with
  | TOC_PROC =>
    obtain ⟨fb, zc, _, _, rfl⟩ := addProcessor_toc machine m m1 p hk h
    exact ⟨nodeInv_push _ _ p eg hk, ec⟩
  | LOC_PROC =>
    rw [addProcessor_loc machine m p hk] at h
    cases h
    exact ⟨eg, nodeInv_push _ _ p ec hk⟩
  | OTHER_PROC =>
    rw [addProcessor_other machine m p hk] at h
    cases h
    exact ⟨eg, ec⟩

theorem addProcessor_memInv_self (machine : Machine) (m m1 : PageRankMapper) (p : Processor)
    (h : addProcessor machine m p = Except.ok m1) : MemInv machine m1 p := by
  cases hk : p.kind with
  | TOC_PROC =>
    obtain ⟨fb, zc, hf, hz, rfl⟩ := addProcessor_toc machine m m1 p hk h
    refine ⟨fun _ => ?_, fun h2 => ?_⟩
    · simp only [memAt_insert_same]
      exact ⟨hf, hz⟩
    · rw [hk] at h2
      cases h2
  | LOC_PROC =>
    rw [addProcessor_loc machine m p hk] at h
    cases h
    refine ⟨fun h2 => ?_, fun _ hne => ?_⟩
    · rw [hk] at h2
      cases h2
    · simp only [memAt_insert_same]
      cases hz : machine.zc_query p with
      | nil => exact absurd hz hne
      | cons z zs => simp
  | OTHER_PROC =>
    refine ⟨fun h2 => ?_, fun h2 => ?_⟩
    · rw [hk] at h2
      cases h2
    · rw [hk] at h2
      cases h2

theorem addProcessor_memInv_keep (machine : Machine) (m m1 : PageRankMapper) (p q : Processor)
    (h : addProcessor machine m p = Except.ok m1) (hq : MemInv machine m q) :
    MemInv machine m1 q := by
  by_cases e : q = p
  · subst e
    exact addProcessor_memInv_self machine m m1 q h
  · cases hk : p.kind with
    | TOC_PROC =>
      obtain ⟨fb, zc, hf, hz, rfl⟩ := addProcessor_toc machine m m1 p hk h
      unfold MemInv at hq ⊢
      simp only [memAt_insert_other _ _ _ _ e]
      exact hq
    | LOC_PROC =>
      rw [addProcessor_loc machine m p hk] at h
      cases h
      unfold MemInv at hq ⊢
      simp only [memAt_insert_other _ _ _ _ e]
      exact hq
    | OTHER_PROC =>
      rw [addProcessor_other machine m p hk] at h
      cases h
      exact hq

theorem addProcessors_props (machine : Machine) :
    ∀ (ps : List Processor) (m m1 : PageRankMapper),
      addProcessors machine ps m = Except.ok m1 →
      (m1.numNodes = m.numNodes ∧ m1.local_gpus = m.local_gpus ∧
        m1.local_cpus = m.local_cpus ∧ m1.gpuSlices = m.gpuSlices ∧
        m1.cpuSlices = m.cpuSlices) ∧
      (NodeInv m.allGPUs ProcKind.TOC_PROC → NodeInv m.allCPUs ProcKind.LOC_PROC →
        NodeInv m1.allGPUs ProcKind.TOC_PROC ∧ NodeInv m1.allCPUs ProcKind.LOC_PROC) ∧
      (∀ q, MemInv machine m q → MemInv machine m1 q) ∧
      (∀ q, q ∈ ps → MemInv machine m1 q) := by
  intro ps
  induction ps with
  | nil =>
    intro m m1 h
    simp only [addProcessors, Except.ok.injEq] at h
    subst h
    exact ⟨⟨rfl, rfl, rfl, rfl, rfl⟩, fun hg hc => ⟨hg, hc⟩, fun _ hq => hq,
      fun q hq => by cases hq⟩
  | cons p ps ih =>
    intro m m1 h
    unfold addProcessors at h
    cases hp : addProcessor machine m p with
    | error e => rw [hp] at h; cases h
    | ok m2 =>
      rw [hp] at h
      obtain ⟨⟨a1, a2, a3, a4, a5⟩, hinv, hkeep, hmem⟩ := ih m2 m1 h
      obtain ⟨b1, b2, b3, b4, b5⟩ := addProcessor_frame machine m m2 p hp
      refine ⟨⟨a1.trans b1, a2.trans b2, a3.trans b3, a4.trans b4, a5.trans b5⟩, ?_, ?_, ?_⟩
      · intro hg hc
        obtain ⟨g2, c2⟩ := addProcessor_nodeInv machine m m2 p hp hg hc
        exact hinv g2 c2
      · intro q hq
        exact hkeep q (addProcessor_memInv_keep machine m m2 p q hp hq)
      · intro q hq
        rcases List.mem_cons.mp hq with rfl | hq
        · exact hkeep q (addProcessor_memInv_self machine m m2 q hp)
        · exact hmem q hq

/-! ## The region loop of `map_task` -/

theorem mapLoop_nil (rt : Runtime) (task : Task) (tgt : Nat → Memory) (idx : Nat) :
    mapLoop rt task tgt idx [] = ([], none) := by
  rw [mapLoop]

theorem mapLoop_cons_created (rt : Runtime) (task : Task) (tgt : Nat → Memory) (idx : Nat)
    (req : RegionRequirement) (reqs : List RegionRequirement)
    (h : rt.create_instances task.target_proc (tgt idx) req idx = true) :
    mapLoop rt task tgt idx (req :: reqs) =
      (MapEvent.create task.target_proc (tgt idx) req idx true ::
        (mapLoop rt task tgt (idx + 1) reqs).1, (mapLoop rt task tgt (idx + 1) reqs).2) := by
  rw [mapLoop]
  simp only [h, if_true]

theorem mapLoop_cons_reported (rt : Runtime) (task : Task) (tgt : Nat → Memory) (idx : Nat)
    (req : RegionRequirement) (reqs : List RegionRequirement)
    (h : rt.create_instances task.target_proc (tgt idx) req idx = false)
    (hr : rt.report_returns = true) :
    mapLoop rt task tgt idx (req :: reqs) =
      (MapEvent.create task.target_proc (tgt idx) req idx false ::
        MapEvent.report task idx task.target_proc (tgt idx) ::
        (mapLoop rt task tgt (idx + 1) reqs).1, (mapLoop rt task tgt (idx + 1) reqs).2) := by
  rw [mapLoop]
  simp [h, hr]

theorem mapLoop_cons_fatal (rt : Runtime) (task : Task) (tgt : Nat → Memory) (idx : Nat)
    (req : RegionRequirement) (reqs : List RegionRequirement)
    (h : rt.create_instances task.target_proc (tgt idx) req idx = false)
    (hr : rt.report_returns = false) :
    mapLoop rt task tgt idx (req :: reqs) =
      ([MapEvent.create task.target_proc (tgt idx) req idx false,
        MapEvent.report task idx task.target_proc (tgt idx)],
       some (MapperError.failedInstanceCreation task idx task.target_proc (tgt idx))) := by
  rw [mapLoop]
  simp [h, hr]

theorem mapLoop_create_mem (rt : Runtime) (task : Task) (tgt : Nat → Memory) :
    ∀ (reqs : List RegionRequirement) (idx0 : Nat) (p : Processor) (mem : Memory)
      (req : RegionRequirement) (i : Nat) (ok : Bool),
      MapEvent.create p mem req i ok ∈ (mapLoop rt task tgt idx0 reqs).1 →
      p = task.target_proc ∧ mem = tgt i ∧ idx0 ≤ i ∧ reqs[i - idx0]? = some req ∧
        ok = rt.create_instances task.target_proc (tgt i) req i := by
  intro reqs
  induction reqs with
  | nil =>
    intro idx0 p mem req i ok h
    rw [mapLoop_nil] at h
    cases h
  | cons r rs ih =>
    intro idx0 p mem req i ok h
    have tail : MapEvent.create p mem req i ok ∈ (mapLoop rt task tgt (idx0 + 1) rs).1 →
        p = task.target_proc ∧ mem = tgt i ∧ idx0 ≤ i ∧ (r :: rs)[i - idx0]? = some req ∧
          ok = rt.create_instances task.target_proc (tgt i) req i := by
      intro h2
      obtain ⟨a, b, c, d, e⟩ := ih (idx0 + 1) p mem req i ok h2
      refine ⟨a, b, by omega, ?_, e⟩
      have : i - idx0 = (i - (idx0 + 1)) + 1 := by omega
      rw [this, List.getElem?_cons_succ]
      exact d
    cases hc : rt.create_instances task.target_proc (tgt idx0) r idx0 with
    | true =>
      rw [mapLoop_cons_created rt task tgt idx0 r rs hc] at h
      rcases List.mem_cons.mp h with h1 | h1
      · simp only [MapEvent.create.injEq] at h1
        obtain ⟨rfl, rfl, rfl, rfl, rfl⟩ := h1
        exact ⟨rfl, rfl, Nat.le_refl _, by simp, hc.symm⟩
      · exact tail h1
    | false =>
      cases hr : rt.report_returns with
      | true =>
        rw [mapLoop_cons_reported rt task tgt idx0 r rs hc hr] at h
        rcases List.mem_cons.mp h with h1 | h1
        · simp only [MapEvent.create.injEq] at h1
          obtain ⟨rfl, rfl, rfl, rfl, rfl⟩ := h1
          exact ⟨rfl, rfl, Nat.le_refl _, by simp, hc.symm⟩
        · rcases List.mem_cons.mp h1 with h2 | h2
          · cases h2
          · exact tail h2
      | false =>
        rw [mapLoop_cons_fatal rt task tgt idx0 r rs hc hr] at h
        rcases List.mem_cons.mp h with h1 | h1
        · simp only [MapEvent.create.injEq] at h1
          obtain ⟨rfl, rfl, rfl, rfl, rfl⟩ := h1
          exact ⟨rfl, rfl, Nat.le_refl _, by simp, hc.symm⟩
        · rcases List.mem_cons.mp h1 with h2 | h2
          · cases h2
          · cases h2

theorem createCount_cons_create (p : Processor) (mem : Memory) (req : RegionRequirement)
    (i : Nat) (ok : Bool) (es : List MapEvent) (idx : Nat) :
    createCount (MapEvent.create p mem req i ok :: es) idx =
      createCount es idx + (if i = idx then 1 else 0) := by
  unfold createCount
  rw [List.countP_cons]
  simp [MapEvent.isCreateAt]

theorem createCount_cons_report (t : Task) (p : Processor) (mem : Memory)
    (i : Nat) (es : List MapEvent) (idx : Nat) :
    createCount (MapEvent.report t i p mem :: es) idx = createCount es idx := by
  unfold createCount
  rw [List.countP_cons]
  simp [MapEvent.isCreateAt]

theorem createCount_nil (idx : Nat) : createCount [] idx = 0 := rfl

theorem mapLoop_count_before (rt : Runtime) (task : Task) (tgt : Nat → Memory) :
    ∀ (reqs : List RegionRequirement) (idx0 idx : Nat), idx < idx0 →
      createCount (mapLoop rt task tgt idx0 reqs).1 idx = 0 := by
  intro reqs
  induction reqs with
  | nil =>
    intro idx0 idx _
    rw [mapLoop_nil]
    rfl
  | cons r rs ih =>
    intro idx0 idx h
    have hne : ¬ idx0 = idx := by omega
    cases hc : rt.create_instances task.target_proc (tgt idx0) r idx0 with
    | true =>
      rw [mapLoop_cons_created rt task tgt idx0 r rs hc]
      simp only [createCount_cons_create, if_neg hne, Nat.add_zero]
      exact ih (idx0 + 1) idx (by omega)
    | false =>
      cases hr : rt.report_returns with
      | true =>
        rw [mapLoop_cons_reported rt task tgt idx0 r rs hc hr]
        simp only [createCount_cons_create, createCount_cons_report, if_neg hne, Nat.add_zero]
        exact ih (idx0 + 1) idx (by omega)
      | false =>
        rw [mapLoop_cons_fatal rt task tgt idx0 r rs hc hr]
        simp only [createCount_cons_create, createCount_cons_report, createCount_nil,
          if_neg hne, Nat.add_zero]

theorem mapLoop_count_le (rt : Runtime) (task : Task) (tgt : Nat → Memory) :
    ∀ (reqs : List RegionRequirement) (idx0 idx : Nat),
      createCount (mapLoop rt task tgt idx0 reqs).1 idx ≤ 1 := by
  intro reqs
  induction reqs with
  | nil =>
    intro idx0 idx
    rw [mapLoop_nil]
    exact Nat.zero_le _
  | cons r rs ih =>
    intro idx0 idx
    have hrest : ∀ (c : Nat), c = createCount (mapLoop rt task tgt (idx0 + 1) rs).1 idx →
        c + (if idx0 = idx then 1 else 0) ≤ 1 := by
      intro c hcdef
      by_cases e : idx0 = idx
      · rw [if_pos e]
        have := mapLoop_count_before rt task tgt rs (idx0 + 1) idx (by omega)
        omega
      · rw [if_neg e]
        have := ih (idx0 + 1) idx
        omega
    cases hc : rt.create_instances task.target_proc (tgt idx0) r idx0 with
    | true =>
      rw [mapLoop_cons_created rt task tgt idx0 r rs hc]
      simp only [createCount_cons_create]
      exact hrest _ rfl
    | false =>
      cases hr : rt.report_returns with
      | true =>
        rw [mapLoop_cons_reported rt task tgt idx0 r rs hc hr]
        simp only [createCount_cons_create, createCount_cons_report]
        exact hrest _ rfl
      | false =>
        rw [mapLoop_cons_fatal rt task tgt idx0 r rs hc hr]
        simp only [createCount_cons_create, createCount_cons_report, createCount_nil]
        split <;> omega

theorem mapLoop_failed_reported (rt : Runtime) (task : Task) (tgt : Nat → Memory) :
    ∀ (reqs : List RegionRequirement) (idx0 : Nat) (p : Processor) (mem : Memory)
      (req : RegionRequirement) (i : Nat),
      MapEvent.create p mem req i false ∈ (mapLoop rt task tgt idx0 reqs).1 →
      MapEvent.report task i p mem ∈ (mapLoop rt task tgt idx0 reqs).1 ∧
        (rt.report_returns = false → (mapLoop rt task tgt idx0 reqs).2 =
          some (MapperError.failedInstanceCreation task i p mem)) := by
  intro reqs
  induction reqs with
  | nil =>
    intro idx0 p mem req i h
    rw [mapLoop_nil] at h
    cases h
  | cons r rs ih =>
    intro idx0 p mem req i h
    cases hc : rt.create_instances task.target_proc (tgt idx0) r idx0 with
    | true =>
      rw [mapLoop_cons_created rt task tgt idx0 r rs hc] at h ⊢
      rcases List.mem_cons.mp h with h1 | h1
      · simp only [MapEvent.create.injEq] at h1
        exact absurd h1.2.2.2.2 (by simp)
      · obtain ⟨a, b⟩ := ih (idx0 + 1) p mem req i h1
        exact ⟨List.mem_cons_of_mem _ a, b⟩
    | false =>
      cases hr : rt.report_returns with
      | true =>
        rw [mapLoop_cons_reported rt task tgt idx0 r rs hc hr] at h ⊢
        rcases List.mem_cons.mp h with h1 | h1
        · simp only [MapEvent.create.injEq] at h1
          obtain ⟨rfl, rfl, rfl, rfl, _⟩ := h1
          exact ⟨List.mem_cons_of_mem _ (List.mem_cons_self _ _), fun h2 => by cases h2⟩
        · rcases List.mem_cons.mp h1 with h2 | h2
          · cases h2
          · obtain ⟨a, _⟩ := ih (idx0 + 1) p mem req i h2
            exact ⟨List.mem_cons_of_mem _ (List.mem_cons_of_mem _ a), fun h3 => by cases h3⟩
      | false =>
        rw [mapLoop_cons_fatal rt task tgt idx0 r rs hc hr] at h ⊢
        rcases List.mem_cons.mp h with h1 | h1
        · simp only [MapEvent.create.injEq] at h1
          obtain ⟨rfl, rfl, rfl, rfl, _⟩ := h1
          exact ⟨List.mem_cons_of_mem _ (List.mem_cons_self _ _), fun _ => rfl⟩
        · rcases List.mem_cons.mp h1 with h2 | h2
          · cases h2
          · cases h2

theorem mapLoop_count_eq (rt : Runtime) (task : Task) (tgt : Nat → Memory) :
    ∀ (reqs : List RegionRequirement) (idx0 k : Nat), k < reqs.length →
      (rt.report_returns = true ∨
        ∀ (j : Nat) (req : RegionRequirement), j < k → reqs[j]? = some req →
          rt.create_instances task.target_proc (tgt (idx0 + j)) req (idx0 + j) = true) →
      createCount (mapLoop rt task tgt idx0 reqs).1 (idx0 + k) = 1 := by
  intro reqs
  induction reqs with
  | nil =>
    intro idx0 k hk
    simp at hk
  | cons r rs ih =>
    intro idx0 k hk hreach
    have hrest : 0 < k → createCount (mapLoop rt task tgt (idx0 + 1) rs).1 (idx0 + k) = 1 := by
      intro hpos
      obtain ⟨k1, rfl⟩ : ∃ k1, k = k1 + 1 := ⟨k - 1, by omega⟩
      have hk1 : k1 < rs.length := by simpa using hk
      have := ih (idx0 + 1) k1 hk1 (by
        rcases hreach with h1 | h1
        · exact Or.inl h1
        · refine Or.inr (fun j req hj hreq => ?_)
          have h2 := h1 (j + 1) req (by omega) (by rw [List.getElem?_cons_succ]; exact hreq)
          have e : idx0 + (j + 1) = idx0 + 1 + j := by omega
          rw [e] at h2
          exact h2)
      have e : idx0 + 1 + k1 = idx0 + (k1 + 1) := by omega
      rw [e] at this
      exact this
    have hzero : k = 0 → createCount (mapLoop rt task tgt (idx0 + 1) rs).1 (idx0 + k) = 0 := by
      intro h0
      exact mapLoop_count_before rt task tgt rs (idx0 + 1) (idx0 + k) (by omega)
    have hcombine : createCount (mapLoop rt task tgt (idx0 + 1) rs).1 (idx0 + k) +
        (if idx0 = idx0 + k then 1 else 0) = 1 := by
      by_cases h0 : k = 0
      · rw [hzero h0, if_pos (by omega)]
      · rw [hrest (by omega), if_neg (by omega)]
    cases hc : rt.create_instances task.target_proc (tgt idx0) r idx0 with
    | true =>
      rw [mapLoop_cons_created rt task tgt idx0 r rs hc]
      simp only [createCount_cons_create]
      exact hcombine
    | false =>
      cases hr : rt.report_returns with
      | true =>
        rw [mapLoop_cons_reported rt task tgt idx0 r rs hc hr]
        simp only [createCount_cons_create, createCount_cons_report]
        exact hcombine
      | false =>
        rw [mapLoop_cons_fatal rt task tgt idx0 r rs hc hr]
        simp only [createCount_cons_create, createCount_cons_report, createCount_nil]
        by_cases h0 : k = 0
        · rw [if_pos (by omega)]
        · exfalso
          rcases hreach with h1 | h1
          · rw [hr] at h1
            cases h1
          · have h2 := h1 0 r (by omega) (by simp)
            rw [Nat.add_zero, hc] at h2
            cases h2

/-! ## `map_task` -/

theorem isGpuTask_iff (rt : Runtime) (task : Task) :
    isGpuTask rt task = true ↔
      (task.task_id = rt.PAGERANK_TASK_ID ∨ task.task_id = INIT_TASK_ID) := by
  simp [isGpuTask]

theorem isGpuTask_of_cpu_id (rt : Runtime) (task : Task)
    (h1 : rt.PAGERANK_TASK_ID ≠ LOAD_TASK_ID) (h2 : rt.PAGERANK_TASK_ID ≠ SCAN_TASK_ID)
    (h : task.task_id = LOAD_TASK_ID ∨ task.task_id = SCAN_TASK_ID) :
    isGpuTask rt task = false := by
  cases hg : isGpuTask rt task with
  | false => rfl
  | true =>
    exfalso
    rcases (isGpuTask_iff rt task).mp hg with e | e
    · rcases h with h | h
      · exact h1 (e.symm.trans h)
      · exact h2 (e.symm.trans h)
    · unfold INIT_TASK_ID at e
      unfold LOAD_TASK_ID SCAN_TASK_ID at h
      omega

theorem map_task_gpu (rt : Runtime) (m : PageRankMapper) (task : Task)
    (output : MapTaskOutput) (v : Nat)
    (hv : rt.find_valid_variants task.task_id task.target_proc.kind = [v])
    (hg : isGpuTask rt task = true) (hk : task.target_proc.kind = ProcKind.TOC_PROC) :
    (map_task rt m task output).events =
      (mapLoop rt task (gpuTgtMem m task) 0 task.regions).1 ∧
    ((mapLoop rt task (gpuTgtMem m task) 0 task.regions).2 = none →
      ∃ out, (map_task rt m task output).status = Except.ok out) ∧
    (∀ e, (mapLoop rt task (gpuTgtMem m task) 0 task.regions).2 = some e →
      (map_task rt m task output).status = Except.error e) := by
  unfold map_task
  rw [hv]
  simp only [hg, if_true, hk]
  cases h2 : (mapLoop rt task (gpuTgtMem m task) 0 task.regions).2 with
  | none => simp
  | some e => simp

theorem map_task_cpu (rt : Runtime) (m : PageRankMapper) (task : Task)
    (output : MapTaskOutput) (v : Nat)
    (hv : rt.find_valid_variants task.task_id task.target_proc.kind = [v])
    (hg : isGpuTask rt task = false)
    (hid : task.task_id = LOAD_TASK_ID ∨ task.task_id = SCAN_TASK_ID)
    (hk : task.target_proc.kind = ProcKind.LOC_PROC) :
    (map_task rt m task output).events =
      (mapLoop rt task (cpuTgtMem m task) 0 task.regions).1 ∧
    ((mapLoop rt task (cpuTgtMem m task) 0 task.regions).2 = none →
      ∃ out, (map_task rt m task output).status = Except.ok out) ∧
    (∀ e, (mapLoop rt task (cpuTgtMem m task) 0 task.regions).2 = some e →
      (map_task rt m task output).status = Except.error e) := by
  have hid2 : (task.task_id == LOAD_TASK_ID || task.task_id == SCAN_TASK_ID) = true := by
    simpa using hid
  unfold map_task
  rw [hv]
  simp only [hg, hid2, if_true, hk]
  cases h2 : (mapLoop rt task (cpuTgtMem m task) 0 task.regions).2 with
  | none => simp
  | some e => simp

theorem map_task_guard_gpu (rt : Runtime) (m : PageRankMapper) (task : Task)
    (output : MapTaskOutput) (hg : isGpuTask rt task = true)
    (hk : task.target_proc.kind ≠ ProcKind.TOC_PROC) :
    (map_task rt m task output).status = Except.error MapperError.assertFailed ∧
      (map_task rt m task output).events = [] := by
  unfold map_task
  split
  · simp only [hg, if_true, if_neg hk, and_self]
  · exact ⟨rfl, rfl⟩

theorem map_task_guard_cpu (rt : Runtime) (m : PageRankMapper) (task : Task)
    (output : MapTaskOutput) (hg : isGpuTask rt task = false)
    (hid : task.task_id = LOAD_TASK_ID ∨ task.task_id = SCAN_TASK_ID)
    (hk : task.target_proc.kind ≠ ProcKind.LOC_PROC) :
    (map_task rt m task output).status = Except.error MapperError.assertFailed ∧
      (map_task rt m task output).events = [] := by
  have hid2 : (task.task_id == LOAD_TASK_ID || task.task_id == SCAN_TASK_ID) = true := by
    simpa using hid
  unfold map_task
  split
  · simp [hg, hid2, hk]
  · exact ⟨rfl, rfl⟩

theorem map_task_events_cases (rt : Runtime) (m : PageRankMapper) (task : Task)
    (output : MapTaskOutput) :
    (map_task rt m task output).events = [] ∨
      (Supported rt task ∧
        (map_task rt m task output).events =
          (mapLoop rt task (tgtMem rt m task) 0 task.regions).1) := by
  cases hv : rt.find_valid_variants task.task_id task.target_proc.kind with
  | nil =>
    left
    unfold map_task
    rw [hv]
  | cons v vs =>
    cases vs with
    | cons v2 vs2 =>
      left
      unfold map_task
      rw [hv]
    | nil =>
      cases hg : isGpuTask rt task with
      | true =>
        by_cases hk : task.target_proc.kind = ProcKind.TOC_PROC
        · right
          refine ⟨⟨⟨v, hv⟩, Or.inl ⟨hg, hk⟩⟩, ?_⟩
          rw [(map_task_gpu rt m task output v hv hg hk).1]
          unfold tgtMem
          simp only [hg, if_true]
        · left
          exact (map_task_guard_gpu rt m task output hg hk).2
      | false =>
        by_cases hid : task.task_id = LOAD_TASK_ID ∨ task.task_id = SCAN_TASK_ID
        · by_cases hk : task.target_proc.kind = ProcKind.LOC_PROC
          · right
            refine ⟨⟨⟨v, hv⟩, Or.inr ⟨hg, hid, hk⟩⟩, ?_⟩
            rw [(map_task_cpu rt m task output v hv hg hid hk).1]
            unfold tgtMem
            simp only [hg]
            rfl
          · left
            exact (map_task_guard_cpu rt m task output hg hid hk).2
        · left
          have hid2 : (task.task_id == LOAD_TASK_ID || task.task_id == SCAN_TASK_ID) = false := by
            simpa using hid
          unfold map_task
          rw [hv]
          simp [hg, hid2]

theorem map_task_supported (rt : Runtime) (m : PageRankMapper) (task : Task)
    (output : MapTaskOutput) (h : Supported rt task) :
    (map_task rt m task output).events =
        (mapLoop rt task (tgtMem rt m task) 0 task.regions).1 ∧
      ((mapLoop rt task (tgtMem rt m task) 0 task.regions).2 = none →
        ∃ out, (map_task rt m task output).status = Except.ok out) ∧
      (∀ e, (mapLoop rt task (tgtMem rt m task) 0 task.regions).2 = some e →
        (map_task rt m task output).status = Except.error e) := by
  obtain ⟨⟨v, hv⟩, hcase⟩ := h
  rcases hcase with ⟨hg, hk⟩ | ⟨hg, hid, hk⟩
  · have e : tgtMem rt m task = gpuTgtMem m task := by
      funext i
      unfold tgtMem
      simp only [hg, if_true]
    rw [e]
    exact map_task_gpu rt m task output v hv hg hk
  · have e : tgtMem rt m task = cpuTgtMem m task := by
      funext i
      unfold tgtMem
      simp only [hg]
      rfl
    rw [e]
    exact map_task_cpu rt m task output v hv hg hid hk

theorem exists_create_of_count (events : List MapEvent) (idx : Nat)
    (h : 0 < createCount events idx) :
    ∃ p mem req ok, MapEvent.create p mem req idx ok ∈ events := by
  unfold createCount at h
  obtain ⟨e, he, hp⟩ := List.countP_pos_iff.mp h
  cases e with
  | create p mem req i ok =>
    have : i = idx := by simpa [MapEvent.isCreateAt] using hp
    subst this
    exact ⟨p, mem, req, ok, he⟩
  | report t i p mem =>
    simp [MapEvent.isCreateAt] at hp

/-! ## `slice_task` -/

theorem slice_task_gpu_cached (rt : Runtime) (m : PageRankMapper) (task : Task)
    (input : SliceTaskInput) (hg : isGpuTask rt task = true) (hc : m.gpuSlices ≠ []) :
    slice_task rt m task input = Except.ok (m, { slices := m.gpuSlices }) := by
  have hl : m.gpuSlices.length > 0 := List.length_pos.mpr hc
  unfold slice_task
  simp only [hg, if_true, hl]

theorem slice_task_gpu_fresh (rt : Runtime) (m : PageRankMapper) (task : Task)
    (input : SliceTaskInput) (hg : isGpuTask rt task = true) (hc : m.gpuSlices = []) :
    slice_task rt m task input =
      match sliceLoop m.allGPUs m.numNodes m.local_gpus.length input.domain.points 0 [] with
      | Except.error e => Except.error e
      | Except.ok s => Except.ok ({ m with gpuSlices := s }, { slices := s }) := by
  unfold slice_task
  simp [hg, hc]

theorem slice_task_cpu_cached (rt : Runtime) (m : PageRankMapper) (task : Task)
    (input : SliceTaskInput) (hg : isGpuTask rt task = false)
    (hid : task.task_id = LOAD_TASK_ID) (hc : m.cpuSlices ≠ []) :
    slice_task rt m task input = Except.ok (m, { slices := m.cpuSlices }) := by
  have hl : m.cpuSlices.length > 0 := List.length_pos.mpr hc
  unfold slice_task
  simp [hg, hid, hl]

theorem slice_task_cpu_fresh (rt : Runtime) (m : PageRankMapper) (task : Task)
    (input : SliceTaskInput) (hg : isGpuTask rt task = false)
    (hid : task.task_id = LOAD_TASK_ID) (hc : m.cpuSlices = []) :
    slice_task rt m task input =
      match sliceLoop m.allCPUs m.numNodes m.local_cpus.length input.domain.points 0 [] with
      | Except.error e => Except.error e
      | Except.ok s => Except.ok ({ m with cpuSlices := s }, { slices := s }) := by
  unfold slice_task
  simp [hg, hid, hc]

theorem slice_task_default (rt : Runtime) (m : PageRankMapper) (task : Task)
    (input : SliceTaskInput) (hg : isGpuTask rt task = false)
    (hid : task.task_id ≠ LOAD_TASK_ID) :
    slice_task rt m task input =
      Except.ok (m, { slices := rt.default_slice_task task input }) := by
  unfold slice_task
  simp [hg, hid]

theorem isGpuTask_of_load (rt : Runtime) (task : Task)
    (h1 : rt.PAGERANK_TASK_ID ≠ LOAD_TASK_ID) (h : task.task_id = LOAD_TASK_ID) :
    isGpuTask rt task = false := by
  cases hg : isGpuTask rt task with
  | false => rfl
  | true =>
    exfalso
    rcases (isGpuTask_iff rt task).mp hg with e | e
    · exact h1 (e.symm.trans h)
    · unfold INIT_TASK_ID at e
      unfold LOAD_TASK_ID at h
      omega

theorem sliceLoop_fresh (all : StdMap Nat (List Processor)) (N L : Nat) (r : Rect1)
    (s : List TaskSlice) (h : sliceLoop all N L r.points 0 [] = Except.ok s) :
    s.length = (r.hi - r.lo + 1).toNat ∧
      ∀ i, i < (r.hi - r.lo + 1).toNat → ∃ proc,
        procAt all N L (i % UNSIGNED_MOD) = Except.ok proc ∧
        s[i]? = some (pointSlice (r.lo + (i : Int)) proc) := by
  constructor
  · obtain ⟨t, ht, hlen⟩ := sliceLoop_extends all N L _ _ _ _ h
    rw [ht, List.nil_append, hlen, points_length]
  · intro i hi
    have hi2 : i < r.points.length := by rw [points_length]; exact hi
    have hM : 0 < UNSIGNED_MOD := by unfold UNSIGNED_MOD; norm_num
    obtain ⟨proc, h1, h2⟩ := sliceLoop_get all N L _ 0 [] s hM h i hi2
    refine ⟨proc, ?_, ?_⟩
    · rw [Nat.zero_add] at h1
      exact h1
    · rw [List.length_nil, Nat.zero_add, points_get r i hi2] at h2
      exact h2

theorem sliceLoop_fails (all : StdMap Nat (List Processor)) (N L : Nat) (r : Rect1)
    (i : Nat) (e : MapperError) (hi : i < (r.hi - r.lo + 1).toNat)
    (he : procAt all N L (i % UNSIGNED_MOD) = Except.error e) :
    ∃ e2, sliceLoop all N L r.points 0 [] = Except.error e2 := by
  cases h : sliceLoop all N L r.points 0 [] with
  | error e2 => exact ⟨e2, rfl⟩
  | ok s =>
    exfalso
    obtain ⟨proc, h1, _⟩ := (sliceLoop_fresh all N L r s h).2 i hi
    rw [he] at h1
    cases h1

theorem sliceLoop_homogeneous (all : StdMap Nat (List Processor)) (N L : Nat)
    (h : Homogeneous all N L) (pts : List Int) (cnt : Nat) (acc : List TaskSlice) :
    ∃ s, sliceLoop all N L pts cnt acc = Except.ok s :=
  sliceLoop_ok all N L (fun c => procAt_ok all N L h.1 h.2.1 h.2.2 c) pts cnt acc

/-! ## `slice_task` by category -/

theorem categoryOf_gpu (rt : Runtime) (task : Task) :
    categoryOf rt task = some Category.gpu ↔ isGpuTask rt task = true := by
  unfold categoryOf
  cases hg : isGpuTask rt task with
  | true => simp
  | false =>
    simp only [Bool.false_eq_true, if_false]
    split <;> simp

theorem categoryOf_cpu (rt : Runtime) (task : Task) :
    categoryOf rt task = some Category.cpu ↔
      (isGpuTask rt task = false ∧ task.task_id = LOAD_TASK_ID) := by
  unfold categoryOf
  cases hg : isGpuTask rt task with
  | true => simp
  | false =>
    simp only [Bool.false_eq_true, if_false]
    by_cases h : task.task_id = LOAD_TASK_ID
    · simp [h]
    · simp [h]

theorem categoryOf_none (rt : Runtime) (task : Task) :
    categoryOf rt task = none ↔
      (isGpuTask rt task = false ∧ task.task_id ≠ LOAD_TASK_ID) := by
  unfold categoryOf
  cases hg : isGpuTask rt task with
  | true => simp
  | false =>
    simp only [Bool.false_eq_true, if_false]
    by_cases h : task.task_id = LOAD_TASK_ID
    · simp [h]
    · simp [h]

theorem slice_task_cached (rt : Runtime) (m : PageRankMapper) (task : Task)
    (input : SliceTaskInput) (c : Category) (hcat : categoryOf rt task = some c)
    (hc : c.cache m ≠ []) :
    slice_task rt m task input = Except.ok (m, { slices := c.cache m }) := by
  cases c with
  | gpu =>
    exact slice_task_gpu_cached rt m task input ((categoryOf_gpu rt task).mp hcat) hc
  | cpu =>
    obtain ⟨hg, hid⟩ := (categoryOf_cpu rt task).mp hcat
    exact slice_task_cpu_cached rt m task input hg hid hc

theorem slice_task_fresh (rt : Runtime) (m : PageRankMapper) (task : Task)
    (input : SliceTaskInput) (c : Category) (hcat : categoryOf rt task = some c)
    (hc : c.cache m = []) :
    slice_task rt m task input =
      match sliceLoop (c.procs m) m.numNodes (c.localCount m) input.domain.points 0 [] with
      | Except.error e => Except.error e
      | Except.ok s => Except.ok (c.setCache m s, { slices := s }) := by
  cases c with
  | gpu =>
    exact slice_task_gpu_fresh rt m task input ((categoryOf_gpu rt task).mp hcat) hc
  | cpu =>
    obtain ⟨hg, hid⟩ := (categoryOf_cpu rt task).mp hcat
    exact slice_task_cpu_fresh rt m task input hg hid hc

theorem slice_task_fresh_ok (rt : Runtime) (m : PageRankMapper) (task : Task)
    (input : SliceTaskInput) (c : Category) (r : PageRankMapper × SliceTaskOutput)
    (hcat : categoryOf rt task = some c) (hc : c.cache m = [])
    (h : slice_task rt m task input = Except.ok r) :
    sliceLoop (c.procs m) m.numNodes (c.localCount m) input.domain.points 0 [] =
        Except.ok r.2.slices ∧
      r.1 = c.setCache m r.2.slices := by
  rw [slice_task_fresh rt m task input c hcat hc] at h
  cases hs : sliceLoop (c.procs m) m.numNodes (c.localCount m) input.domain.points 0 [] with
  | error e => rw [hs] at h; cases h
  | ok s =>
    rw [hs] at h
    simp only [Except.ok.injEq] at h
    subst h
    exact ⟨rfl, rfl⟩

theorem slice_task_total (rt : Runtime) (m : PageRankMapper) (task : Task)
    (input : SliceTaskInput) (c : Category) (hcat : categoryOf rt task = some c)
    (h : Homogeneous (c.procs m) m.numNodes (c.localCount m)) :
    ∃ r, slice_task rt m task input = Except.ok r := by
  by_cases hc : c.cache m = []
  · obtain ⟨s, hs⟩ := sliceLoop_homogeneous (c.procs m) m.numNodes (c.localCount m) h
      input.domain.points 0 []
    rw [slice_task_fresh rt m task input c hcat hc, hs]
    exact ⟨_, rfl⟩
  · exact ⟨_, slice_task_cached rt m task input c hcat hc⟩

theorem setCache_cache (c : Category) (m : PageRankMapper) (s : List TaskSlice) :
    c.cache (c.setCache m s) = s := by
  cases c <;> rfl

theorem setCache_other (c : Category) (m : PageRankMapper) (s : List TaskSlice) :
    c.otherCache (c.setCache m s) = c.otherCache m := by
  cases c <;> rfl

theorem setCache_frame (c : Category) (m : PageRankMapper) (s : List TaskSlice) :
    c.procs (c.setCache m s) = c.procs m ∧ (c.setCache m s).numNodes = m.numNodes ∧
      c.localCount (c.setCache m s) = c.localCount m := by
  cases c <;> exact ⟨rfl, rfl, rfl⟩

theorem procAt_div_zero (all : StdMap Nat (List Processor)) (N L c : Nat)
    (h : N = 0 ∨ L = 0) : procAt all N L c = Except.error MapperError.divByZero := by
  unfold procAt
  by_cases hN : N = 0
  · rw [if_pos hN]
  · rw [if_neg hN]
    rcases h with h | h
    · exact absurd h hN
    · rw [if_pos h]

theorem procAt_short (all : StdMap Nat (List Processor)) (N L c : Nat) (v : List Processor)
    (hN : 1 ≤ N) (hL : 1 ≤ L) (hv : all (nodeOf N c) = some v)
    (hlen : v.length ≤ localIndex N L c) :
    procAt all N L c = Except.error MapperError.outOfRange := by
  unfold procAt
  rw [if_neg (by omega), if_neg (by omega), hv]
  simp only
  rw [List.getElem?_eq_none hlen]

theorem procAt_reach (all : StdMap Nat (List Processor)) (N L c : Nat) (v : List Processor)
    (hN : 1 ≤ N) (hL : 1 ≤ L) (hv : all (nodeOf N c) = some v)
    (hlen : localIndex N L c < v.length) :
    ∃ p, procAt all N L c = Except.ok p := by
  refine ⟨v[localIndex N L c], ?_⟩
  unfold procAt
  rw [if_neg (by omega), if_neg (by omega), hv]
  simp only
  rw [List.getElem?_eq_getElem hlen]

theorem sliceLoop_ok_bounded (all : StdMap Nat (List Processor)) (N L B : Nat)
    (hB : B < UNSIGNED_MOD) (hp : ∀ c, c < B → ∃ p, procAt all N L c = Except.ok p) :
    ∀ (pts : List Int) (cnt : Nat) (acc : List TaskSlice), cnt + pts.length ≤ B →
      ∃ s, sliceLoop all N L pts cnt acc = Except.ok s := by
  intro pts
  induction pts with
  | nil =>
    intro cnt acc _
    exact ⟨acc, rfl⟩
  | cons pt pts ih =>
    intro cnt acc hlen
    have hl : cnt + (pts.length + 1) ≤ B := by simpa using hlen
    obtain ⟨p, hpc⟩ := hp cnt (by omega)
    rw [sliceLoop_cons all N L pt pts cnt acc p hpc, Nat.mod_eq_of_lt (by omega)]
    exact ih _ _ (by omega)

theorem setCache_idem (c : Category) (m : PageRankMapper) (s t : List TaskSlice) :
    c.setCache (c.setCache m s) t = c.setCache m t := by
  cases c <;> rfl

theorem slice_task_state (rt : Runtime) (m : PageRankMapper) (task : Task)
    (input : SliceTaskInput) (r : PageRankMapper × SliceTaskOutput)
    (h : slice_task rt m task input = Except.ok r) :
    r.1 = m ∨ ∃ c, categoryOf rt task = some c ∧ c.cache m = [] ∧
      r.1 = c.setCache m r.2.slices := by
  cases hcat : categoryOf rt task with
  | none =>
    left
    obtain ⟨hg, hid⟩ := (categoryOf_none rt task).mp hcat
    rw [slice_task_default rt m task input hg hid] at h
    simp only [Except.ok.injEq] at h
    rw [← h]
  | some c =>
    by_cases hc : c.cache m = []
    · right
      exact ⟨c, rfl, hc, (slice_task_fresh_ok rt m task input c r hcat hc h).2⟩
    · left
      rw [slice_task_cached rt m task input c hcat hc] at h
      simp only [Except.ok.injEq] at h
      rw [← h]

theorem slice_task_keeps_gpu (rt : Runtime) (m : PageRankMapper) (task : Task)
    (input : SliceTaskInput) (r : PageRankMapper × SliceTaskOutput)
    (h : slice_task rt m task input = Except.ok r) (hne : m.gpuSlices ≠ []) :
    r.1.gpuSlices = m.gpuSlices := by
  rcases slice_task_state rt m task input r h with e | ⟨c, _, hc, e⟩
  · rw [e]
  · rw [e]
    cases c with
    | gpu => exact absurd hc hne
    | cpu => rfl

theorem slice_task_keeps_cpu (rt : Runtime) (m : PageRankMapper) (task : Task)
    (input : SliceTaskInput) (r : PageRankMapper × SliceTaskOutput)
    (h : slice_task rt m task input = Except.ok r) (hne : m.cpuSlices ≠ []) :
    r.1.cpuSlices = m.cpuSlices := by
  rcases slice_task_state rt m task input r h with e | ⟨c, _, hc, e⟩
  · rw [e]
  · rw [e]
    cases c with
    | gpu => rfl
    | cpu => exact absurd hc hne

theorem slice_task_keeps_other (rt : Runtime) (m : PageRankMapper) (task : Task)
    (input : SliceTaskInput) (r : PageRankMapper × SliceTaskOutput) (c : Category)
    (hcat : categoryOf rt task = some c) (h : slice_task rt m task input = Except.ok r) :
    c.otherCache r.1 = c.otherCache m := by
  rcases slice_task_state rt m task input r h with e | ⟨c2, hcat2, _, e⟩
  · rw [e]
  · rw [hcat] at hcat2
    cases hcat2
    rw [e, setCache_other]

theorem sliceCalls_keeps (rt : Runtime) :
    ∀ (calls : List (Task × SliceTaskInput)) (m m2 : PageRankMapper),
      sliceCalls rt m calls = Except.ok m2 →
      (m.gpuSlices ≠ [] → m2.gpuSlices = m.gpuSlices) ∧
        (m.cpuSlices ≠ [] → m2.cpuSlices = m.cpuSlices) := by
  intro calls
  induction calls with
  | nil =>
    intro m m2 h
    simp only [sliceCalls, Except.ok.injEq] at h
    subst h
    exact ⟨fun _ => rfl, fun _ => rfl⟩
  | cons call calls ih =>
    intro m m2 h
    unfold sliceCalls at h
    cases hr : slice_task rt m call.1 call.2 with
    | error e => rw [hr] at h; cases h
    | ok r =>
      rw [hr] at h
      obtain ⟨a, b⟩ := ih r.1 m2 h
      constructor
      · intro hne
        have e := slice_task_keeps_gpu rt m call.1 call.2 r hr hne
        rw [a (by rw [e]; exact hne), e]
      · intro hne
        have e := slice_task_keeps_cpu rt m call.1 call.2 r hr hne
        rw [b (by rw [e]; exact hne), e]

/-! ## The stride formula spreads partitions over the local processors -/

/-- Claim C9.  For `N = numNodes ≥ 1` and `L ≥ 1` local processors with
`N * L ≤ MAX_NUM_PARTS`, the map `k ↦ (nodeOf N k, localIndex N L k)` that
`slice_task` applies to the positions `k < N * L` (for GPUs and for CPUs alike)
lands in `[0, N) × [0, L)`; it is injective exactly when `gcd 9 L = 1`, which is
exactly when 3 does not divide `L`, and then every (node, local index) pair is
hit by exactly one position.  When 3 divides `L`, every node has two positions
sharing a local index and a local index (index 1) that no position reaches, and
for `L = 3` or `L = 9` every position has local index 0. -/
theorem stride_spread (N L : Nat) (hN : 1 ≤ N) (hL : 1 ≤ L)
    (hNL : N * L ≤ MAX_NUM_PARTS) :
    (∀ k, nodeOf N k < N ∧ localIndex N L k < L) ∧
    ((∀ k1 k2, k1 < N * L → k2 < N * L → nodeOf N k1 = nodeOf N k2 →
        localIndex N L k1 = localIndex N L k2 → k1 = k2) ↔ Nat.gcd 9 L = 1) ∧
    (Nat.gcd 9 L = 1 ↔ ¬ 3 ∣ L) ∧
    (Nat.gcd 9 L = 1 → ∀ n j, n < N → j < L →
      ∃ k, (k < N * L ∧ nodeOf N k = n ∧ localIndex N L k = j) ∧
        ∀ k2, k2 < N * L ∧ nodeOf N k2 = n ∧ localIndex N L k2 = j → k2 = k) ∧
    (3 ∣ L → ∀ n, n < N →
      (∃ k1 k2, k1 < N * L ∧ k2 < N * L ∧ k1 ≠ k2 ∧ nodeOf N k1 = n ∧ nodeOf N k2 = n ∧
        localIndex N L k1 = localIndex N L k2) ∧
      (∃ j, j < L ∧ ∀ k, k < N * L → nodeOf N k = n → localIndex N L k ≠ j)) ∧
    (L = 3 ∨ L = 9 → ∀ k, k < N * L → localIndex N L k = 0) := by
  have hcollide : 3 ∣ L → ∀ n, n < N →
      (∃ k1 k2, k1 < N * L ∧ k2 < N * L ∧ k1 ≠ k2 ∧ nodeOf N k1 = n ∧ nodeOf N k2 = n ∧
        localIndex N L k1 = localIndex N L k2) ∧
      (∃ j, j < L ∧ ∀ k, k < N * L → nodeOf N k = n → localIndex N L k ≠ j) := by
    intro h3 n hn
    obtain ⟨a, b, c, d, e, f⟩ := stride_collision N L hNL hL h3 n hn
    refine ⟨⟨n, (L / 3) * N + n, a, b, c, d, e, f⟩, 1, ?_, ?_⟩
    · obtain ⟨t, rfl⟩ := h3
      omega
    · intro k hk _ hone
      have hdiv := stride_multiple_of_three N L k (by omega) h3
      rw [hone] at hdiv
      omega
  refine ⟨?_, ?_, coprime_nine_iff L, ?_, hcollide, ?_⟩
  · intro k
    exact ⟨Nat.mod_lt _ (by omega), Nat.mod_lt _ (by omega)⟩
  · constructor
    · intro hinj
      by_contra hg
      have h3 : 3 ∣ L := by
        by_contra h3
        exact hg ((coprime_nine_iff L).mpr h3)
      obtain ⟨⟨k1, k2, a, b, c, d, e, f⟩, _⟩ := hcollide h3 0 (by omega)
      exact c (hinj k1 k2 a b (d.trans e.symm) f)
    · intro hg k1 k2 h1 h2 hn hl
      exact stride_injective N L hNL hg k1 k2 h1 h2 hn hl
  · intro hg n j hn hj
    obtain ⟨k, hk, h1, h2⟩ := stride_hits N L hNL hg n j hn hj
    refine ⟨k, ⟨hk, h1, h2⟩, ?_⟩
    rintro k2 ⟨hk2, g1, g2⟩
    exact stride_injective N L hNL hg k2 k hk2 hk (g1.trans h1.symm) (g2.trans h2.symm)
  · intro hL39 k hk
    exact stride_degenerate N L k (by omega) hL39

/-- Witness for C9: with 2 nodes and 4 local GPUs the eight positions go to
eight different (node, local index) pairs, and with 2 nodes and 3 local GPUs
all six positions use local index 0. -/
theorem stride_spread_witness :
    (∀ k1 k2, k1 < 2 * 4 → k2 < 2 * 4 → nodeOf 2 k1 = nodeOf 2 k2 →
        localIndex 2 4 k1 = localIndex 2 4 k2 → k1 = k2) ∧
      (∀ k, k < 2 * 3 → localIndex 2 3 k = 0) :=
  ⟨(stride_spread 2 4 (by decide) (by decide) (by decide)).2.1.mpr (by decide),
   (stride_spread 2 3 (by decide) (by decide) (by decide)).2.2.2.2.2 (Or.inl rfl)⟩

/-! ## The lookups of `slice_task` are safe on a homogeneous cluster -/

/-- Counterexample for C10: in `lopsidedMapper` node 0 holds one GPU, fewer
than the three local GPUs, and still no position below `MAX_NUM_PARTS` indexes
out of range, so every launch of at most `MAX_NUM_PARTS` points is sliced
without error. -/
theorem lopsided_in_range :
    lopsidedMapper.numNodes = 2 ∧ lopsidedMapper.local_gpus.length = 3 ∧
    lopsidedMapper.allGPUs 0 = some [demoGpu 1 0] ∧
    (∀ cnt, cnt < MAX_NUM_PARTS →
      ∃ p, procAt lopsidedMapper.allGPUs 2 3 cnt = Except.ok p) ∧
    (∀ input : SliceTaskInput,
      (input.domain.hi - input.domain.lo + 1).toNat ≤ MAX_NUM_PARTS →
      ∃ r, slice_task demoRuntime lopsidedMapper demoInitTask input = Except.ok r) := by
  have hp : ∀ cnt, cnt < MAX_NUM_PARTS →
      ∃ p, procAt lopsidedMapper.allGPUs 2 3 cnt = Except.ok p := by
    intro cnt hc
    have hidx : localIndex 2 3 cnt = 0 := stride_degenerate 2 3 cnt hc (Or.inl rfl)
    have hnode : nodeOf 2 cnt = 0 ∨ nodeOf 2 cnt = 1 := by
      unfold nodeOf
      omega
    rcases hnode with h0 | h1
    · refine procAt_reach _ 2 3 cnt [demoGpu 1 0] (by decide) (by decide) ?_ ?_
      · rw [h0]
        rfl
      · rw [hidx]
        decide
    · refine procAt_reach _ 2 3 cnt [demoGpu 4 1, demoGpu 5 1, demoGpu 6 1]
        (by decide) (by decide) ?_ ?_
      · rw [h1]
        rfl
      · rw [hidx]
        decide
  refine ⟨rfl, rfl, rfl, hp, ?_⟩
  intro input hlen
  have hcat : categoryOf demoRuntime demoInitTask = some Category.gpu := by decide
  have hB : MAX_NUM_PARTS < UNSIGNED_MOD := by decide
  obtain ⟨s, hs⟩ := sliceLoop_ok_bounded lopsidedMapper.allGPUs 2 3 MAX_NUM_PARTS hB hp
    input.domain.points 0 [] (by rw [points_length]; omega)
  have hs2 : sliceLoop (Category.gpu.procs lopsidedMapper) lopsidedMapper.numNodes
      (Category.gpu.localCount lopsidedMapper) input.domain.points 0 [] = Except.ok s := hs
  rw [slice_task_fresh demoRuntime lopsidedMapper demoInitTask input Category.gpu hcat rfl, hs2]
  exact ⟨_, rfl⟩

/-- Claim C10, amended.  For a task of the GPU category (with `allGPUs` and
`local_gpus.size()`) or of the CPU category (with `allCPUs` and
`local_cpus.size()`): on a homogeneous cluster every position has its node
below `numNodes` and its local index below the local count, its lookup
succeeds, and `slice_task` returns for every domain.  With a fresh cache and a
non-empty domain, `numNodes = 0` or a local count of 0 makes the first point
divide by zero.  When `gcd 9 L = 1` and `numNodes * L ≤ MAX_NUM_PARTS`, a node
that holds fewer than `L` processors makes some position below `numNodes * L`
index out of range, and `slice_task` fails on a fresh cache for every domain
with at least that many points. -/
theorem slice_task_lookups_safe (rt : Runtime) (m : PageRankMapper) (task : Task)
    (input : SliceTaskInput) (c : Category) (hcat : categoryOf rt task = some c) :
    (Homogeneous (c.procs m) m.numNodes (c.localCount m) →
      (∀ cnt, nodeOf m.numNodes cnt < m.numNodes ∧
        localIndex m.numNodes (c.localCount m) cnt < c.localCount m ∧
        ∃ p, procAt (c.procs m) m.numNodes (c.localCount m) cnt = Except.ok p) ∧
      ∃ r, slice_task rt m task input = Except.ok r) ∧
    (c.cache m = [] → input.domain.lo ≤ input.domain.hi →
      (m.numNodes = 0 ∨ c.localCount m = 0) →
      slice_task rt m task input = Except.error MapperError.divByZero) ∧
    (1 ≤ m.numNodes → 1 ≤ c.localCount m → Nat.gcd 9 (c.localCount m) = 1 →
      m.numNodes * c.localCount m ≤ MAX_NUM_PARTS →
      ∀ n v, n < m.numNodes → c.procs m n = some v → v.length < c.localCount m →
        (∃ k, k < m.numNodes * c.localCount m ∧
          procAt (c.procs m) m.numNodes (c.localCount m) k =
            Except.error MapperError.outOfRange) ∧
        (c.cache m = [] →
          m.numNodes * c.localCount m ≤ (input.domain.hi - input.domain.lo + 1).toNat →
          ∃ e, slice_task rt m task input = Except.error e)) := by
  refine ⟨?_, ?_, ?_⟩
  · intro hh
    refine ⟨fun cnt => ⟨Nat.mod_lt _ (by have := hh.1; omega),
      Nat.mod_lt _ (by have := hh.2.1; omega),
      procAt_ok _ _ _ hh.1 hh.2.1 hh.2.2 cnt⟩, ?_⟩
    exact slice_task_total rt m task input c hcat hh
  · intro hc hdom hz
    have hlen : 0 < input.domain.points.length := by
      rw [points_length]
      omega
    rw [slice_task_fresh rt m task input c hcat hc]
    cases hpts : input.domain.points with
    | nil => rw [hpts] at hlen; simp at hlen
    | cons pt pts =>
      rw [sliceLoop_first_error _ _ _ pt pts 0 [] _ (procAt_div_zero _ _ _ 0 hz)]
  · intro hN hL hg hNL n v hn hv hshort
    obtain ⟨k, hk, h1, h2⟩ := stride_hits m.numNodes (c.localCount m) hNL hg n v.length hn hshort
    have herr : procAt (c.procs m) m.numNodes (c.localCount m) k =
        Except.error MapperError.outOfRange :=
      procAt_short _ _ _ k v hN hL (by rw [h1]; exact hv) (by rw [h2])
    refine ⟨⟨k, hk, herr⟩, ?_⟩
    intro hc hcover
    have hkM : k % UNSIGNED_MOD = k := by
      apply Nat.mod_eq_of_lt
      unfold MAX_NUM_PARTS at hNL
      unfold UNSIGNED_MOD
      omega
    obtain ⟨e2, he2⟩ := sliceLoop_fails (c.procs m) m.numNodes (c.localCount m) input.domain k
      MapperError.outOfRange (by omega) (by rw [hkM]; exact herr)
    rw [slice_task_fresh rt m task input c hcat hc, he2]
    exact ⟨e2, rfl⟩

/-- Witness for C10: the two-node `demoMapper` is homogeneous, so the launch
over `demoInput` is sliced; `shortMapper` lists one GPU for a node with two
local GPUs, and the launch over `widerInput` fails. -/
theorem slice_task_lookups_safe_witness :
    (∃ r, slice_task demoRuntime demoMapper demoInitTask demoInput = Except.ok r) ∧
      (∃ e, slice_task demoRuntime shortMapper demoInitTask widerInput = Except.error e) :=
  ⟨((slice_task_lookups_safe demoRuntime demoMapper demoInitTask demoInput Category.gpu
      (by decide)).1
      ⟨by decide, by decide, fun n hn => by
        have h : n = 0 ∨ n = 1 := by
          have h2 : n < 2 := hn
          omega
        rcases h with rfl | rfl
        · exact ⟨_, rfl, by decide⟩
        · exact ⟨_, rfl, by decide⟩⟩).2,
   ((slice_task_lookups_safe demoRuntime shortMapper demoInitTask widerInput Category.gpu
      (by decide)).2.2 (by decide) (by decide) (by decide) (by decide)
      0 [demoGpu 1 0] (by decide) rfl (by decide)).2 rfl (by decide)⟩

/-! ## The constructor checks the memory affinity of every GPU -/

/-- Claim C6.  On a machine in which every CPU has a zero-copy memory with
affinity to it, the constructor fails, with a failed assertion, if and only if
some GPU of the machine does not have exactly one frame-buffer memory of best
affinity or does not have exactly one zero-copy memory with affinity to it; no
other error occurs; and when it succeeds, `memFBs[g]` and `memZCs[g]` are the
unique frame-buffer and zero-copy memory of every GPU `g`, and `memZCs[c]` is
a zero-copy memory with affinity to `c` for every CPU `c`. -/
theorem constructor_checks_affinity (machine : Machine)
    (remote_gpus local_gpus local_cpus : List Processor)
    (hcpu : ∀ c, c ∈ machine.procs → c.kind = ProcKind.LOC_PROC → machine.zc_query c ≠ []) :
    (PageRankMapper.new machine remote_gpus local_gpus local_cpus =
        Except.error MapperError.assertFailed ↔
      ∃ g, g ∈ machine.procs ∧ g.kind = ProcKind.TOC_PROC ∧
        ((machine.fb_query g).length ≠ 1 ∨ (machine.zc_query g).length ≠ 1)) ∧
    (∀ e, PageRankMapper.new machine remote_gpus local_gpus local_cpus = Except.error e →
      e = MapperError.assertFailed) ∧
    (∀ m, PageRankMapper.new machine remote_gpus local_gpus local_cpus = Except.ok m →
      (∀ g, g ∈ machine.procs → g.kind = ProcKind.TOC_PROC →
        machine.fb_query g = [memAt m.memFBs g] ∧ machine.zc_query g = [memAt m.memZCs g]) ∧
      (∀ c, c ∈ machine.procs → c.kind = ProcKind.LOC_PROC →
        memAt m.memZCs c ∈ machine.zc_query c)) := by
  refine ⟨?_, ?_, ?_⟩
  · constructor
    · intro h
      obtain ⟨g, hg, hb⟩ := (addProcessors_error_iff machine machine.procs _).mp ⟨_, h⟩
      exact ⟨g, hg, hb.1, hb.2⟩
    · rintro ⟨g, hg, hk, hb⟩
      obtain ⟨e, he⟩ := (addProcessors_error_iff machine machine.procs _).mpr ⟨g, hg, hk, hb⟩
      have e1 := addProcessors_error_eq machine machine.procs _ e he
      subst e1
      exact he
  · intro e he
    exact addProcessors_error_eq machine machine.procs _ e he
  · intro m hm
    obtain ⟨_, _, _, hmem⟩ := addProcessors_props machine machine.procs _ m hm
    constructor
    · intro g hg hk
      exact (hmem g hg).1 hk
    · intro c hc hk
      exact (hmem c hc).2 hk (hcpu c hc hk)

/-- Witness for C6: on `brokenMachine`, whose last GPU has no zero-copy
memory, the constructor fails with a failed assertion; on `demoMachine` it
returns `demoMapper`, which maps GPU 4 to its frame buffer 104. -/
theorem constructor_checks_affinity_witness :
    PageRankMapper.new brokenMachine [demoGpu 1 0, demoGpu 4 1] [demoGpu 1 0, demoGpu 2 0]
        [demoCpu 3 0] = Except.error MapperError.assertFailed ∧
      demoMachine.fb_query (demoGpu 4 1) = [memAt demoMapper.memFBs (demoGpu 4 1)] :=
  ⟨(constructor_checks_affinity brokenMachine [demoGpu 1 0, demoGpu 4 1]
      [demoGpu 1 0, demoGpu 2 0] [demoCpu 3 0] (by decide)).1.mpr
      ⟨demoGpu 7 1, by decide, rfl, Or.inr (by decide)⟩,
   (((constructor_checks_affinity demoMachine [demoGpu 1 0, demoGpu 4 1]
      [demoGpu 1 0, demoGpu 2 0] [demoCpu 3 0] (by decide)).2.2 demoMapper rfl).1
      (demoGpu 4 1) (by decide) rfl).1⟩

/-! ## Round-robin placement over the nodes -/

/-- Claim C1.  Let `m` be a freshly constructed mapper (its two caches are
empty and `numNodes = remote_gpus.size()`), let the task be of the GPU category
(`PAGERANK_TASK_ID`, `INIT_TASK_ID`) or of the CPU category (`LOAD_TASK_ID`),
and let the domain `[lo, hi]` have at most `MAX_NUM_PARTS` points.  Whenever
`slice_task` returns, the slice at position `k` is the point `lo + k`, and its
processor is taken from the list stored under node `k % numNodes`, is of the
kind of the category (a GPU, or a CPU for `LOAD_TASK_ID`), and has address
space `k % numNodes`.  On a homogeneous cluster `slice_task` does return. -/
theorem slice_task_round_robin (machine : Machine)
    (remote_gpus local_gpus local_cpus : List Processor) (rt : Runtime)
    (m : PageRankMapper) (task : Task) (input : SliceTaskInput) (c : Category)
    (hnew : PageRankMapper.new machine remote_gpus local_gpus local_cpus = Except.ok m)
    (hcat : categoryOf rt task = some c)
    (hdom : (input.domain.hi - input.domain.lo + 1).toNat ≤ MAX_NUM_PARTS) :
    (m.gpuSlices = [] ∧ m.cpuSlices = [] ∧ m.numNodes = remote_gpus.length) ∧
    (∀ r, slice_task rt m task input = Except.ok r →
      ∀ k, k < (input.domain.hi - input.domain.lo + 1).toNat →
        ∃ s v, r.2.slices[k]? = some s ∧
          s.domain = ⟨input.domain.lo + (k : Int), input.domain.lo + (k : Int)⟩ ∧
          c.procs m (k % m.numNodes) = some v ∧ s.proc ∈ v ∧
          s.proc.kind = c.kind ∧ s.proc.address_space = k % m.numNodes) ∧
    (Homogeneous (c.procs m) m.numNodes (c.localCount m) →
      ∃ r, slice_task rt m task input = Except.ok r) := by
  obtain ⟨⟨f1, _, _, f4, f5⟩, hinv, _, _⟩ := addProcessors_props machine machine.procs _ m hnew
  obtain ⟨ig, ic⟩ := hinv (nodeInv_empty _) (nodeInv_empty _)
  have hfresh : c.cache m = [] := by
    cases c with
    | gpu => exact f4
    | cpu => exact f5
  have hnode : NodeInv (c.procs m) c.kind := by
    cases c with
    | gpu => exact ig
    | cpu => exact ic
  refine ⟨⟨f4, f5, f1⟩, ?_, slice_task_total rt m task input c hcat⟩
  intro r hr k hk
  obtain ⟨hloop, _⟩ := slice_task_fresh_ok rt m task input c r hcat hfresh hr
  obtain ⟨proc, hp, hs⟩ := (sliceLoop_fresh _ _ _ input.domain r.2.slices hloop).2 k hk
  have hkM : k % UNSIGNED_MOD = k := by
    apply Nat.mod_eq_of_lt
    unfold MAX_NUM_PARTS at hdom
    unfold UNSIGNED_MOD
    omega
  rw [hkM] at hp
  obtain ⟨_, _, v, hv, hget⟩ := procAt_mem _ _ _ k proc hp
  have hmemv : proc ∈ v := List.getElem?_mem hget
  obtain ⟨a, b⟩ := hnode _ v hv proc hmemv
  exact ⟨pointSlice (input.domain.lo + (k : Int)) proc, v, hs, rfl, hv, hmemv, b, a⟩

/-- Witness for C1: on the mapper built for `demoMachine`, the `INIT_TASK_ID`
launch over `[0, 3]` puts partition 3 on a GPU of node `3 % 2`. -/
theorem slice_task_round_robin_witness :
    ∃ s v, demoSliced.2.slices[3]? = some s ∧
      s.domain = ⟨demoInput.domain.lo + ((3 : Nat) : Int), demoInput.domain.lo + ((3 : Nat) : Int)⟩ ∧
      Category.gpu.procs demoMapper (3 % demoMapper.numNodes) = some v ∧ s.proc ∈ v ∧
      s.proc.kind = Category.gpu.kind ∧ s.proc.address_space = 3 % demoMapper.numNodes :=
  (slice_task_round_robin demoMachine [demoGpu 1 0, demoGpu 4 1] [demoGpu 1 0, demoGpu 2 0]
    [demoCpu 3 0] demoRuntime demoMapper demoInitTask demoInput Category.gpu rfl (by decide)
    (by decide)).2.1 demoSliced rfl 3 (by decide)

/-! ## Every point task is pinned to one processor -/

/-- Claim C5.  For a task of the GPU or the CPU category whose cache is still
empty and a domain `[lo, hi]`: whenever `slice_task` returns, the output has
`hi - lo + 1` slices (none for an empty domain); slice `i` is the single point
`[lo + i, lo + i]` with `recurse = false` and `stealable = false`; every slice
domain lies inside `[lo, hi]`; and every point of `[lo, hi]` lies in exactly
one slice domain.  On a homogeneous cluster `slice_task` does return. -/
theorem slice_task_pins_points (rt : Runtime) (m : PageRankMapper) (task : Task)
    (input : SliceTaskInput) (c : Category) (hcat : categoryOf rt task = some c)
    (hfresh : c.cache m = []) :
    (∀ r, slice_task rt m task input = Except.ok r →
      r.2.slices.length = (input.domain.hi - input.domain.lo + 1).toNat ∧
      (∀ i, i < (input.domain.hi - input.domain.lo + 1).toNat →
        ∃ s, r.2.slices[i]? = some s ∧
          s.domain = ⟨input.domain.lo + (i : Int), input.domain.lo + (i : Int)⟩ ∧
          s.recurse = false ∧ s.stealable = false) ∧
      (∀ (j : Nat) (s : TaskSlice), r.2.slices[j]? = some s →
        input.domain.lo ≤ s.domain.lo ∧ s.domain.hi ≤ input.domain.hi) ∧
      (∀ pt : Int, input.domain.lo ≤ pt → pt ≤ input.domain.hi →
        ∃ i, i < r.2.slices.length ∧
          ∀ (j : Nat) (s : TaskSlice), r.2.slices[j]? = some s →
            (s.domain.lo ≤ pt ∧ pt ≤ s.domain.hi ↔ j = i))) ∧
    (Homogeneous (c.procs m) m.numNodes (c.localCount m) →
      ∃ r, slice_task rt m task input = Except.ok r) := by
  refine ⟨?_, slice_task_total rt m task input c hcat⟩
  intro r hr
  obtain ⟨hloop, _⟩ := slice_task_fresh_ok rt m task input c r hcat hfresh hr
  obtain ⟨hlen, hget⟩ := sliceLoop_fresh _ _ _ input.domain r.2.slices hloop
  have hshape : ∀ (j : Nat) (s : TaskSlice), r.2.slices[j]? = some s →
      j < (input.domain.hi - input.domain.lo + 1).toNat ∧
        s.domain = ⟨input.domain.lo + (j : Int), input.domain.lo + (j : Int)⟩ := by
    intro j s hs
    have hj : j < r.2.slices.length := (List.getElem?_eq_some_iff.mp hs).1
    rw [hlen] at hj
    obtain ⟨proc, _, hs2⟩ := hget j hj
    rw [hs] at hs2
    simp only [Option.some.injEq] at hs2
    rw [hs2]
    exact ⟨hj, rfl⟩
  refine ⟨hlen, ?_, ?_, ?_⟩
  · intro i hi
    obtain ⟨proc, _, hs⟩ := hget i hi
    exact ⟨_, hs, rfl, rfl, rfl⟩
  · intro j s hs
    obtain ⟨hj, hd⟩ := hshape j s hs
    rw [hd]
    simp only
    omega
  · intro pt h1 h2
    refine ⟨(pt - input.domain.lo).toNat, by rw [hlen]; omega, ?_⟩
    intro j s hs
    obtain ⟨hj, hd⟩ := hshape j s hs
    rw [hd]
    simp only
    omega

/-- Witness for C5: the first `INIT_TASK_ID` launch over `[0, 3]` on
`demoMapper` yields four slices, the third being the point 2, neither
recursive nor stealable. -/
theorem slice_task_pins_points_witness :
    demoSliced.2.slices.length = (demoInput.domain.hi - demoInput.domain.lo + 1).toNat ∧
      ∃ s, demoSliced.2.slices[2]? = some s ∧
        s.domain = ⟨demoInput.domain.lo + ((2 : Nat) : Int),
          demoInput.domain.lo + ((2 : Nat) : Int)⟩ ∧
        s.recurse = false ∧ s.stealable = false :=
  ⟨((slice_task_pins_points demoRuntime demoMapper demoInitTask demoInput Category.gpu
      (by decide) rfl).1 demoSliced rfl).1,
   ((slice_task_pins_points demoRuntime demoMapper demoInitTask demoInput Category.gpu
      (by decide) rfl).1 demoSliced rfl).2.1 2 (by decide)⟩

/-! ## Placement is idempotent and the cache is never invalidated -/

/-- Claim C3.  For every mapper state, two tasks of one category (both of the
GPU category, or both `LOAD_TASK_ID`) and every domain, empty or not: when the
first `slice_task` call returns a state and a slice list, the second call, made
on that state with the same domain, returns the same state and the same slice
list.  On a homogeneous cluster the first call does return. -/
theorem slice_task_idempotent (rt : Runtime) (m : PageRankMapper) (t1 t2 : Task)
    (input : SliceTaskInput) (c : Category) (h1 : categoryOf rt t1 = some c)
    (h2 : categoryOf rt t2 = some c) :
    (∀ r, slice_task rt m t1 input = Except.ok r →
      slice_task rt r.1 t2 input = Except.ok r) ∧
    (Homogeneous (c.procs m) m.numNodes (c.localCount m) →
      ∃ r, slice_task rt m t1 input = Except.ok r ∧
        slice_task rt r.1 t2 input = Except.ok r) := by
  have main : ∀ r, slice_task rt m t1 input = Except.ok r →
      slice_task rt r.1 t2 input = Except.ok r := by
    intro r hr
    by_cases hc : c.cache m = []
    · obtain ⟨hloop, hst⟩ := slice_task_fresh_ok rt m t1 input c r h1 hc hr
      obtain ⟨a, ⟨b⟩⟩ := r
      simp only at hloop hst
      subst hst
      obtain ⟨e1, e2, e3⟩ := setCache_frame c m b
      by_cases hs : b = []
      · have hc2 : c.cache (c.setCache m b) = [] := by rw [setCache_cache]; exact hs
        rw [slice_task_fresh rt _ t2 input c h2 hc2, e1, e2, e3, hloop]
        simp only [setCache_idem]
      · have hc2 : c.cache (c.setCache m b) ≠ [] := by rw [setCache_cache]; exact hs
        rw [slice_task_cached rt _ t2 input c h2 hc2, setCache_cache]
    · rw [slice_task_cached rt m t1 input c h1 hc] at hr
      simp only [Except.ok.injEq] at hr
      subst hr
      exact slice_task_cached rt m t2 input c h2 hc
  refine ⟨main, ?_⟩
  intro hh
  obtain ⟨r, hr⟩ := slice_task_total rt m t1 input c h1 hh
  exact ⟨r, hr, main r hr⟩

/-- Witness for C3: after the `INIT_TASK_ID` launch over `[0, 3]` on
`demoMapper`, an identical second launch returns the same state and slices. -/
theorem slice_task_idempotent_witness :
    slice_task demoRuntime demoSliced.1 demoInitTask demoInput = Except.ok demoSliced :=
  (slice_task_idempotent demoRuntime demoMapper demoInitTask demoInitTask demoInput
    Category.gpu (by decide) (by decide)).1 demoSliced rfl

/-- Claim C4.  A `slice_task` call that returns leaves a non-empty `gpuSlices`
unchanged and a non-empty `cpuSlices` unchanged, whatever the task id and the
domain; with a non-empty `gpuSlices` every call for `PAGERANK_TASK_ID` or
`INIT_TASK_ID` returns, and returns exactly `gpuSlices`, and likewise for
`cpuSlices` and `LOAD_TASK_ID` (an id outside the GPU category); a GPU-category
call never changes `cpuSlices` and a `LOAD_TASK_ID` call never changes
`gpuSlices`; and after any run of returning calls a non-empty cache is still
the one the run started with. -/
theorem slice_cache_never_invalidated (rt : Runtime) (m : PageRankMapper) :
    (∀ task input r, slice_task rt m task input = Except.ok r →
      (m.gpuSlices ≠ [] → r.1.gpuSlices = m.gpuSlices) ∧
      (m.cpuSlices ≠ [] → r.1.cpuSlices = m.cpuSlices) ∧
      ((task.task_id = rt.PAGERANK_TASK_ID ∨ task.task_id = INIT_TASK_ID) →
        r.1.cpuSlices = m.cpuSlices) ∧
      (rt.PAGERANK_TASK_ID ≠ LOAD_TASK_ID → task.task_id = LOAD_TASK_ID →
        r.1.gpuSlices = m.gpuSlices)) ∧
    (∀ task input, m.gpuSlices ≠ [] →
      (task.task_id = rt.PAGERANK_TASK_ID ∨ task.task_id = INIT_TASK_ID) →
      slice_task rt m task input = Except.ok (m, { slices := m.gpuSlices })) ∧
    (∀ task input, m.cpuSlices ≠ [] → rt.PAGERANK_TASK_ID ≠ LOAD_TASK_ID →
      task.task_id = LOAD_TASK_ID →
      slice_task rt m task input = Except.ok (m, { slices := m.cpuSlices })) ∧
    (∀ calls m2, sliceCalls rt m calls = Except.ok m2 →
      (m.gpuSlices ≠ [] → m2.gpuSlices = m.gpuSlices) ∧
      (m.cpuSlices ≠ [] → m2.cpuSlices = m.cpuSlices)) := by
  refine ⟨?_, ?_, ?_, ?_⟩
  · intro task input r hr
    refine ⟨slice_task_keeps_gpu rt m task input r hr,
      slice_task_keeps_cpu rt m task input r hr, ?_, ?_⟩
    · intro hid
      have hcat := (categoryOf_gpu rt task).mpr ((isGpuTask_iff rt task).mpr hid)
      exact slice_task_keeps_other rt m task input r Category.gpu hcat hr
    · intro hP hid
      have hcat := (categoryOf_cpu rt task).mpr ⟨isGpuTask_of_load rt task hP hid, hid⟩
      exact slice_task_keeps_other rt m task input r Category.cpu hcat hr
  · intro task input hne hid
    have hcat := (categoryOf_gpu rt task).mpr ((isGpuTask_iff rt task).mpr hid)
    exact slice_task_cached rt m task input Category.gpu hcat hne
  · intro task input hne hP hid
    have hcat := (categoryOf_cpu rt task).mpr ⟨isGpuTask_of_load rt task hP hid, hid⟩
    exact slice_task_cached rt m task input Category.cpu hcat hne
  · intro calls m2 h
    exact sliceCalls_keeps rt calls m m2 h

/-- Witness for C4: once the launch over `[0, 3]` has filled `gpuSlices`, an
`INIT_TASK_ID` launch over the different domain `[0, 5]` returns the cached
four slices and the unchanged state. -/
theorem slice_cache_never_invalidated_witness :
    slice_task demoRuntime demoSliced.1 demoInitTask widerInput =
      Except.ok (demoSliced.1, { slices := demoSliced.1.gpuSlices }) :=
  (slice_cache_never_invalidated demoRuntime demoSliced.1).2.1 demoInitTask widerInput
    (by decide) (Or.inr rfl)

/-! ## The memory binding of `map_task` -/

theorem tgtMem_gpu (rt : Runtime) (m : PageRankMapper) (task : Task) (idx : Nat)
    (hg : isGpuTask rt task = true) :
    (idx < 3 → tgtMem rt m task idx = memAt m.memFBs task.target_proc) ∧
      (3 ≤ idx → tgtMem rt m task idx = memAt m.memZCs task.target_proc) := by
  unfold tgtMem gpuTgtMem
  simp only [hg, if_true]
  constructor
  · intro h
    rw [if_pos h]
  · intro h
    rw [if_neg (by omega)]

theorem tgtMem_cpu (rt : Runtime) (m : PageRankMapper) (task : Task) (idx : Nat)
    (hg : isGpuTask rt task = false) :
    tgtMem rt m task idx = memAt m.memZCs task.target_proc := by
  unfold tgtMem cpuTgtMem
  simp only [hg]
  rfl

theorem map_task_create_mem (rt : Runtime) (m : PageRankMapper) (task : Task)
    (output : MapTaskOutput) (p : Processor) (mem : Memory) (req : RegionRequirement)
    (idx : Nat) (ok : Bool)
    (h : MapEvent.create p mem req idx ok ∈ (map_task rt m task output).events) :
    Supported rt task ∧ p = task.target_proc ∧ mem = tgtMem rt m task idx ∧
      task.regions[idx]? = some req := by
  rcases map_task_events_cases rt m task output with he | ⟨hs, he⟩
  · rw [he] at h
    cases h
  · rw [he] at h
    obtain ⟨a, b, _, d, _⟩ := mapLoop_create_mem rt task _ _ 0 p mem req idx ok h
    exact ⟨hs, a, b, d⟩

theorem map_task_reaches (rt : Runtime) (m : PageRankMapper) (task : Task)
    (output : MapTaskOutput) (idx : Nat) (hs : Supported rt task)
    (hidx : idx < task.regions.length)
    (hreach : ReachesRegion rt task (tgtMem rt m task) idx) :
    createCount (map_task rt m task output).events idx = 1 := by
  rw [(map_task_supported rt m task output hs).1]
  have h := mapLoop_count_eq rt task (tgtMem rt m task) task.regions 0 idx hidx (by
    rcases hreach with h1 | h1
    · exact Or.inl h1
    · refine Or.inr (fun j req hj hreq => ?_)
      rw [Nat.zero_add]
      exact h1 j req hj hreq)
  rw [Nat.zero_add] at h
  exact h

/-- Claim C2.  Every instance-creation request that `map_task` makes for region
`idx` is made for the target processor and for `task.regions[idx]`, at
`memFBs[target_proc]` when the task id is `PAGERANK_TASK_ID` or `INIT_TASK_ID`
and `idx < 3`, at `memZCs[target_proc]` when the task id is one of those two and
`idx ≥ 3`, and at `memZCs[target_proc]` for every `idx` when the task id is
`LOAD_TASK_ID` or `SCAN_TASK_ID` (ids outside the GPU category).  For a task that
passes the assertions, the request for region `idx < regions.size()` is made
once the loop gets to that region. -/
theorem map_task_binding_rule (rt : Runtime) (m : PageRankMapper) (task : Task)
    (output : MapTaskOutput) (idx : Nat) :
    (∀ p mem req ok,
      MapEvent.create p mem req idx ok ∈ (map_task rt m task output).events →
      p = task.target_proc ∧ task.regions[idx]? = some req ∧
      ((task.task_id = rt.PAGERANK_TASK_ID ∨ task.task_id = INIT_TASK_ID) →
        (idx < 3 → mem = memAt m.memFBs task.target_proc) ∧
        (3 ≤ idx → mem = memAt m.memZCs task.target_proc)) ∧
      (rt.PAGERANK_TASK_ID ≠ LOAD_TASK_ID → rt.PAGERANK_TASK_ID ≠ SCAN_TASK_ID →
        (task.task_id = LOAD_TASK_ID ∨ task.task_id = SCAN_TASK_ID) →
        mem = memAt m.memZCs task.target_proc)) ∧
    (Supported rt task → idx < task.regions.length →
      ReachesRegion rt task (tgtMem rt m task) idx →
      ∃ req ok, MapEvent.create task.target_proc (tgtMem rt m task idx) req idx ok ∈
        (map_task rt m task output).events) := by
  constructor
  · intro p mem req ok h
    obtain ⟨_, a, b, d⟩ := map_task_create_mem rt m task output p mem req idx ok h
    refine ⟨a, d, ?_, ?_⟩
    · intro hid
      have hg := (isGpuTask_iff rt task).mpr hid
      obtain ⟨g1, g2⟩ := tgtMem_gpu rt m task idx hg
      exact ⟨fun h3 => b.trans (g1 h3), fun h3 => b.trans (g2 h3)⟩
    · intro h1 h2 hid
      exact b.trans (tgtMem_cpu rt m task idx (isGpuTask_of_cpu_id rt task h1 h2 hid))
  · intro hs hidx hreach
    have hcount := map_task_reaches rt m task output idx hs hidx hreach
    obtain ⟨p, mem, req, ok, hmem⟩ :=
      exists_create_of_count (map_task rt m task output).events idx (by omega)
    obtain ⟨_, a, b, _⟩ := map_task_create_mem rt m task output p mem req idx ok hmem
    subst a
    subst b
    exact ⟨req, ok, hmem⟩

/-- Witness for C2: for the `INIT_TASK_ID` task on GPU 1, region 0 is
requested in the frame buffer 101 of that GPU and region 3 in the zero-copy
memory 200 of its node. -/
theorem map_task_binding_rule_witness :
    MapEvent.create (demoGpu 1 0) ⟨101⟩ ⟨10⟩ 0 true ∈
        (map_task demoRuntime demoMapper demoInitTask blankOutput).events ∧
      ((3 : Nat) ≤ 3 → (⟨200⟩ : Memory) = memAt demoMapper.memZCs demoInitTask.target_proc) ∧
      ∃ req ok, MapEvent.create demoInitTask.target_proc
        (tgtMem demoRuntime demoMapper demoInitTask 3) req 3 ok ∈
          (map_task demoRuntime demoMapper demoInitTask blankOutput).events :=
  ⟨by decide,
   (((map_task_binding_rule demoRuntime demoMapper demoInitTask blankOutput 3).1
      (demoGpu 1 0) ⟨200⟩ ⟨13⟩ true (by decide)).2.2.1 (Or.inr rfl)).2,
   (map_task_binding_rule demoRuntime demoMapper demoInitTask blankOutput 3).2
      (by
        refine ⟨⟨0, rfl⟩, Or.inl ⟨by decide, rfl⟩⟩)
      (by decide) (Or.inr (fun _ _ _ _ => rfl))⟩

/-! ## No fallback memory, and the guard on the processor kind -/

/-- Counterexample for C7: `misplacedTask` has the id `INIT_TASK_ID` and one
region, its target is a CPU, and `map_task` makes no instance-creation attempt
for region 0. -/
theorem misplaced_task_not_attempted :
    misplacedTask.task_id = INIT_TASK_ID ∧ 0 < misplacedTask.regions.length ∧
      createCount (map_task demoRuntime demoMapper misplacedTask blankOutput).events 0 = 0 := by
  decide

/-- Claim C7, amended.  For every task and region index `idx`: every
instance-creation attempt of `map_task` for region `idx` is for the target
processor, for `task.regions[idx]`, and at the one memory the binding rule
gives; there is at most one such attempt; a failed attempt is followed by a
report carrying the task, `idx`, the target processor and that memory, which is
also the error `map_task` ends with when the report does not return; and for a
task that passes the assertions of `map_task` there is exactly one attempt for
every region `idx < regions.size()` that the loop gets to. -/
theorem map_task_no_fallback (rt : Runtime) (m : PageRankMapper) (task : Task)
    (output : MapTaskOutput) (idx : Nat) :
    (∀ p mem req ok,
      MapEvent.create p mem req idx ok ∈ (map_task rt m task output).events →
      p = task.target_proc ∧ mem = tgtMem rt m task idx ∧
        task.regions[idx]? = some req) ∧
    createCount (map_task rt m task output).events idx ≤ 1 ∧
    (∀ p mem req,
      MapEvent.create p mem req idx false ∈ (map_task rt m task output).events →
      MapEvent.report task idx p mem ∈ (map_task rt m task output).events ∧
        (rt.report_returns = false →
          (map_task rt m task output).status =
            Except.error (MapperError.failedInstanceCreation task idx p mem))) ∧
    (Supported rt task → idx < task.regions.length →
      ReachesRegion rt task (tgtMem rt m task) idx →
      createCount (map_task rt m task output).events idx = 1) := by
  refine ⟨?_, ?_, ?_, ?_⟩
  · intro p mem req ok h
    exact (map_task_create_mem rt m task output p mem req idx ok h).2
  · rcases map_task_events_cases rt m task output with he | ⟨_, he⟩
    · rw [he]
      exact Nat.zero_le _
    · rw [he]
      exact mapLoop_count_le rt task _ task.regions 0 idx
  · intro p mem req h
    obtain ⟨hs, _, _, _⟩ := map_task_create_mem rt m task output p mem req idx false h
    obtain ⟨he, _, herr⟩ := map_task_supported rt m task output hs
    rw [he] at h ⊢
    obtain ⟨a, b⟩ := mapLoop_failed_reported rt task _ task.regions 0 p mem req idx h
    exact ⟨a, fun hr => herr _ (b hr)⟩
  · intro hs hidx hreach
    exact map_task_reaches rt m task output idx hs hidx hreach

/-- Witness for C7: under `tightRuntime` the creation for region 1 of the
`INIT_TASK_ID` task fails; it was the only attempt for that region, at the
frame buffer 101, and `map_task` reports it and ends with that error. -/
theorem map_task_no_fallback_witness :
    createCount (map_task tightRuntime demoMapper demoInitTask blankOutput).events 1 = 1 ∧
      MapEvent.report demoInitTask 1 (demoGpu 1 0) ⟨101⟩ ∈
        (map_task tightRuntime demoMapper demoInitTask blankOutput).events ∧
      (tightRuntime.report_returns = false →
        (map_task tightRuntime demoMapper demoInitTask blankOutput).status =
          Except.error (MapperError.failedInstanceCreation demoInitTask 1 (demoGpu 1 0) ⟨101⟩)) :=
  ⟨(map_task_no_fallback tightRuntime demoMapper demoInitTask blankOutput 1).2.2.2
      ⟨⟨0, rfl⟩, Or.inl ⟨by decide, rfl⟩⟩ (by decide)
      (Or.inr (fun j req hj hreq => by
        have h0 : j = 0 := by omega
        subst h0
        rfl)),
   (map_task_no_fallback tightRuntime demoMapper demoInitTask blankOutput 1).2.2.1
      (demoGpu 1 0) ⟨101⟩ ⟨11⟩ (by decide)⟩

/-- Under `tightRuntime` the report for region 1 ends `map_task`: regions 2
and 3 of the `INIT_TASK_ID` task are never attempted. -/
theorem tight_runtime_stops :
    createCount (map_task tightRuntime demoMapper demoInitTask blankOutput).events 2 = 0 ∧
      createCount (map_task tightRuntime demoMapper demoInitTask blankOutput).events 3 = 0 := by
  decide

/-- Claim C8.  A task with id `PAGERANK_TASK_ID` or `INIT_TASK_ID` whose target
processor is not a GPU, and a task with id `LOAD_TASK_ID` or `SCAN_TASK_ID` (ids
outside the GPU category) whose target processor is not a CPU, make `map_task`
fail with a failed assertion, and no instance creation is attempted. -/
theorem map_task_rejects_wrong_kind (rt : Runtime) (m : PageRankMapper) (task : Task)
    (output : MapTaskOutput) :
    ((task.task_id = rt.PAGERANK_TASK_ID ∨ task.task_id = INIT_TASK_ID) →
      task.target_proc.kind ≠ ProcKind.TOC_PROC →
      (map_task rt m task output).status = Except.error MapperError.assertFailed ∧
        (map_task rt m task output).events = []) ∧
    (rt.PAGERANK_TASK_ID ≠ LOAD_TASK_ID → rt.PAGERANK_TASK_ID ≠ SCAN_TASK_ID →
      (task.task_id = LOAD_TASK_ID ∨ task.task_id = SCAN_TASK_ID) →
      task.target_proc.kind ≠ ProcKind.LOC_PROC →
      (map_task rt m task output).status = Except.error MapperError.assertFailed ∧
        (map_task rt m task output).events = []) := by
  constructor
  · intro hid hk
    exact map_task_guard_gpu rt m task output ((isGpuTask_iff rt task).mpr hid) hk
  · intro h1 h2 hid hk
    exact map_task_guard_cpu rt m task output (isGpuTask_of_cpu_id rt task h1 h2 hid) hid hk

/-- Witness for C8: the `INIT_TASK_ID` task targeted at a CPU fails the
assertion before any region is bound. -/
theorem map_task_rejects_wrong_kind_witness :
    (map_task demoRuntime demoMapper misplacedTask blankOutput).status =
        Except.error MapperError.assertFailed ∧
      (map_task demoRuntime demoMapper misplacedTask blankOutput).events = [] :=
  (map_task_rejects_wrong_kind demoRuntime demoMapper misplacedTask blankOutput).1
    (Or.inr rfl) (by decide)

end Lux
